import Mathlib

/-!
Verification of the SudokuCreator program (src/main.rs).

The program works on `Vec<Vec<i32>>` grids; we model them as `List (List Int)`.
Indexing `sudoku[r][c]` is modelled with `getD` defaults (the Rust code panics
out of bounds; all verified claims stay in bounds).  Randomness (`thread_rng`)
is modelled by passing the drawn values explicitly as parameters; theorems
quantify over all draw sequences satisfying the guarantees of the
corresponding `rand` primitive.
-/

namespace SudokuCreator

/-- Grid model: a `Vec<Vec<i32>>` is a list of rows of integers. -/
abbrev Grid := List (List Int)

/-- Read `sudoku[r][c]` (0 when out of bounds; the claims stay in bounds). -/
def getCell (g : Grid) (r c : Nat) : Int := (g.getD r []).getD c 0

/-- Write `sudoku[r][c] = v` (no-op out of bounds, where the source panics). -/
def setCell (g : Grid) (r c : Nat) (v : Int) : Grid :=
  g.set r ((g.getD r []).set c v)

/-- The literal `vec![1,2,3,4,5,6,7,8,9]` used by `check_if_sudoku_solved`. -/
def nums19 : List Int := [1, 2, 3, 4, 5, 6, 7, 8, 9]

/-- Shape predicate: the grid is a well-formed 9×9 matrix. -/
def Shape9 (g : Grid) : Prop := g.length = 9 ∧ ∀ row ∈ g, row.length = 9

instance : DecidablePred Shape9 := fun g => by unfold Shape9; infer_instance

theorem getD_eq_getElem {α : Type} (l : List α) (i : Nat) (d : α) (h : i < l.length) :
    l.getD i d = l[i] := by
  simp [List.getD_eq_getElem?_getD, List.getElem?_eq_getElem h]

theorem getD_eq_default {α : Type} (l : List α) (i : Nat) (d : α) (h : l.length ≤ i) :
    l.getD i d = d := by
  simp [List.getD_eq_getElem?_getD, List.getElem?_eq_none h]

theorem getD_set_self {α : Type} (l : List α) (i : Nat) (v d : α) (h : i < l.length) :
    (l.set i v).getD i d = v := by
  simp [List.getD_eq_getElem?_getD, List.getElem?_set_self h]

theorem getD_set_ne {α : Type} (l : List α) (i j : Nat) (v d : α) (h : i ≠ j) :
    (l.set i v).getD j d = l.getD j d := by
  simp [List.getD_eq_getElem?_getD, List.getElem?_set_ne h]

theorem set_getD_self {α : Type} (l : List α) (i : Nat) (d : α) (h : i < l.length) :
    l.set i (l.getD i d) = l := by
  induction l generalizing i with
  | nil => simp at h
  | cons x xs ih =>
    cases i with
    | zero => simp
    | succ n =>
      simp only [List.getD_cons_succ, List.set_cons_succ, List.cons.injEq, true_and]
      exact ih n (by simpa using h)

theorem length_shape {g : Grid} (h : Shape9 g) : g.length = 9 := h.1

theorem row_length_shape {g : Grid} (h : Shape9 g) (r : Nat) (hr : r < 9) :
    (g.getD r []).length = 9 := by
  have hlen : r < g.length := by rw [h.1]; exact hr
  rw [getD_eq_getElem g r [] hlen]
  exact h.2 _ (List.getElem_mem hlen)

theorem getCell_setCell_self {g : Grid} (h : Shape9 g) {r c : Nat} (hr : r < 9) (hc : c < 9)
    (v : Int) : getCell (setCell g r c v) r c = v := by
  have hrg : r < g.length := by rw [h.1]; exact hr
  have hcg : c < (g.getD r []).length := by rw [row_length_shape h r hr]; exact hc
  unfold getCell setCell
  rw [getD_set_self _ _ _ _ hrg, getD_set_self _ _ _ _ hcg]

theorem getCell_setCell_zero (g : Grid) (r c : Nat) :
    getCell (setCell g r c 0) r c = 0 := by
  unfold getCell setCell
  by_cases hr : r < g.length
  · rw [getD_set_self _ _ _ _ hr]
    by_cases hc : c < (g.getD r []).length
    · rw [getD_set_self _ _ _ _ hc]
    · rw [List.set_eq_of_length_le (Nat.le_of_not_lt hc)]
      rw [getD_eq_default _ _ _ (Nat.le_of_not_lt hc)]
  · rw [List.set_eq_of_length_le]
    · rw [getD_eq_default _ _ _ (Nat.le_of_not_lt hr)] at *
      simp
    · exact Nat.le_of_not_lt hr

theorem getCell_setCell_ne (g : Grid) {r c r' c' : Nat} (v : Int)
    (h : r ≠ r' ∨ c ≠ c') : getCell (setCell g r c v) r' c' = getCell g r' c' := by
  unfold getCell setCell
  rcases h with h | h
  · rw [getD_set_ne _ _ _ _ _ h]
  · by_cases hr : r = r'
    · subst hr
      by_cases hrl : r < g.length
      · rw [getD_set_self _ _ _ _ hrl, getD_set_ne _ _ _ _ _ h]
      · rw [List.set_eq_of_length_le (Nat.le_of_not_lt hrl)]
    · rw [getD_set_ne _ _ _ _ _ hr]

theorem shape_setCell {g : Grid} (h : Shape9 g) (r c : Nat) (v : Int) :
    Shape9 (setCell g r c v) := by
  by_cases hr : r < g.length
  · constructor
    · unfold setCell; rw [List.length_set]; exact h.1
    · intro row hrow
      unfold setCell at hrow
      rcases List.mem_or_eq_of_mem_set hrow with h2 | h2
      · exact h.2 _ h2
      · subst h2
        rw [List.length_set, getD_eq_getElem _ _ _ hr]
        exact h.2 _ (List.getElem_mem hr)
  · unfold setCell
    rw [List.set_eq_of_length_le (Nat.le_of_not_lt hr)]
    exact h

theorem setCell_setCell (g : Grid) (r c : Nat) (v w : Int) :
    setCell (setCell g r c v) r c w = setCell g r c w := by
  unfold setCell
  by_cases hr : r < g.length
  · rw [getD_set_self _ _ _ _ hr, List.set_set, List.set_set]
  · rw [List.set_eq_of_length_le (Nat.le_of_not_lt hr),
        List.set_eq_of_length_le (Nat.le_of_not_lt hr)]

theorem setCell_getCell_self {g : Grid} (h : Shape9 g) {r c : Nat} (hr : r < 9) (hc : c < 9) :
    setCell g r c (getCell g r c) = g := by
  have hrg : r < g.length := by rw [h.1]; exact hr
  have hcg : c < (g.getD r []).length := by rw [row_length_shape h r hr]; exact hc
  unfold setCell getCell
  rw [set_getD_self _ _ _ hcg, set_getD_self _ _ _ hrg]

/-- Embedding of `fill_row`: write `numbers[i]` into row `row_index` at column
`i + column_offset`, reduced by 9 once when it reaches 9 (the source's
`if idx>=9 { idx -= 9 }`). -/
def fill_row (sudoku : Grid) (numbers : List Int) (row_index column_offset : Nat) : Grid :=
  numbers.enum.foldl
    (fun g p =>
      setCell g row_index
        (if p.1 + column_offset ≥ 9 then p.1 + column_offset - 9 else p.1 + column_offset)
        p.2)
    sudoku

/-- Embedding of `flip_row`: the element-wise loop swaps the full contents of the
two rows (identity when the indices coincide), which is what this computes. -/
def flip_row (sudoku : Grid) (row_idx1 row_idx2 : Nat) : Grid :=
  (sudoku.set row_idx1 (sudoku.getD row_idx2 [])).set row_idx2 (sudoku.getD row_idx1 [])

/-- Embedding of `flip_rows`: the 5 draws of `generate_two_unique_random_numbers`
are passed explicitly as a list of index pairs. -/
def flip_rows (sudoku : Grid) (choices : List (Nat × Nat)) : Grid :=
  choices.foldl (fun g p => flip_row g p.1 p.2) sudoku

/-- Embedding of `flip_all_rows` with the three bands' draw lists explicit. -/
def flip_all_rows (sudoku : Grid) (c1 c2 c3 : List (Nat × Nat)) : Grid :=
  flip_rows (flip_rows (flip_rows sudoku c1) c2) c3

/-- Single band swap from the body of `flip_grid_rows`: swap rows
`vector_of_vectors[b1][i]` and `vector_of_vectors[b2][i]` for `i = 0, 1, 2`,
i.e. rows `3*b1+i` and `3*b2+i`. -/
def band_flip_rows (sudoku : Grid) (b1 b2 : Nat) : Grid :=
  flip_row (flip_row (flip_row sudoku (3 * b1) (3 * b2)) (3 * b1 + 1) (3 * b2 + 1))
    (3 * b1 + 2) (3 * b2 + 2)

/-- Embedding of `flip_grid_rows`: the 5 random band pairs are explicit. -/
def flip_grid_rows (sudoku : Grid) (choices : List (Nat × Nat)) : Grid :=
  choices.foldl (fun g p => band_flip_rows g p.1 p.2) sudoku

/-- Embedding of `flip_column`: per row, swap the entries at the two column
indices (the second write uses the value read before the first write). -/
def flip_column (sudoku : Grid) (column_idx1 column_idx2 : Nat) : Grid :=
  sudoku.map fun row =>
    (row.set column_idx1 (row.getD column_idx2 0)).set column_idx2 (row.getD column_idx1 0)

/-- Embedding of `flip_columns` with explicit draws. -/
def flip_columns (sudoku : Grid) (choices : List (Nat × Nat)) : Grid :=
  choices.foldl (fun g p => flip_column g p.1 p.2) sudoku

/-- Embedding of `flip_all_columns` with the three bands' draw lists explicit. -/
def flip_all_columns (sudoku : Grid) (c1 c2 c3 : List (Nat × Nat)) : Grid :=
  flip_columns (flip_columns (flip_columns sudoku c1) c2) c3

/-- Single column-band swap from the body of `flip_grid_columns`. -/
def band_flip_columns (sudoku : Grid) (b1 b2 : Nat) : Grid :=
  flip_column (flip_column (flip_column sudoku (3 * b1) (3 * b2)) (3 * b1 + 1) (3 * b2 + 1))
    (3 * b1 + 2) (3 * b2 + 2)

/-- Embedding of `flip_grid_columns`: the 5 random band pairs are explicit. -/
def flip_grid_columns (sudoku : Grid) (choices : List (Nat × Nat)) : Grid :=
  choices.foldl (fun g p => band_flip_columns g p.1 p.2) sudoku

/-- Embedding of `rotate_90_degrees`.  The source scatter-writes
`rotated[j][n-1-i] = sudoku[i][j]` into an `m × n` zero matrix; every target
cell `(j, k)` is written exactly once, with `i = n-1-k`, so the gather form
below is the same function. -/
def rotate_90_degrees (sudoku : Grid) : Grid :=
  (List.range (sudoku.headD []).length).map fun j =>
    (List.range sudoku.length).map fun k => getCell sudoku (sudoku.length - 1 - k) j

/-- Embedding of `rotate_180_degrees`.  The source scatter-writes
`rotated[n-1-i][m-1-j] = sudoku[i][j]` into an `m × n` zero matrix; on square
grids (the only ones on which the source does not panic) every cell `(r, c)`
is written exactly once, with value `sudoku[n-1-r][m-1-c]`. -/
def rotate_180_degrees (sudoku : Grid) : Grid :=
  (List.range (sudoku.headD []).length).map fun r =>
    (List.range sudoku.length).map fun c =>
      getCell sudoku (sudoku.length - 1 - r) ((sudoku.headD []).length - 1 - c)

/-- Embedding of `rotate_270_degrees`.  The source scatter-writes
`rotated[m-1-j][i] = sudoku[i][j]`; cell `(r, c)` receives `sudoku[c][m-1-r]`. -/
def rotate_270_degrees (sudoku : Grid) : Grid :=
  (List.range (sudoku.headD []).length).map fun r =>
    (List.range sudoku.length).map fun c =>
      getCell sudoku c ((sudoku.headD []).length - 1 - r)

/-- Embedding of `random_rotate`.  The draw of `generate_random_number(0..3)`
is the explicit parameter `rot_num`; the source dispatches on it with an
if-chain whose `rot_num == 3` branch exists but is unreachable (the range
`0..3` is exclusive). -/
def random_rotate (sudoku : Grid) (rot_num : Int) : Grid :=
  if rot_num = 1 then rotate_90_degrees sudoku
  else if rot_num = 2 then rotate_180_degrees sudoku
  else if rot_num = 3 then rotate_270_degrees sudoku
  else sudoku

/-- Embedding of `get_column`: note the loop bound is `n = sudoku.len()`. -/
def get_column (sudoku : Grid) (column_idx : Nat) : List Int :=
  (List.range sudoku.length).map fun i => getCell sudoku i column_idx

/-- Embedding of `get_row`: note the source also uses `n = sudoku.len()` as the
number of entries read from the row. -/
def get_row (sudoku : Grid) (row_idx : Nat) : List Int :=
  (List.range sudoku.length).map fun i => getCell sudoku row_idx i

/-- Embedding of `get_subgrid`: rows `row_idx1..row_idx2`, columns
`column_idx1..column_idx2`, both half-open, row-major. -/
def get_subgrid (sudoku : Grid) (row_idx1 row_idx2 column_idx1 column_idx2 : Nat) : List Int :=
  (List.range' row_idx1 (row_idx2 - row_idx1)).flatMap fun i =>
    (List.range' column_idx1 (column_idx2 - column_idx1)).map fun j => getCell sudoku i j

/-- Loop of `is_vec_valid`, with the `HashSet` of already-seen non-zero values
modelled as the list `seen` (insertion returning `false` = membership). -/
def is_vec_valid_loop (seen : List Int) : List Int → Bool
  | [] => true
  | num :: rest =>
    if num ≠ 0 then
      if num ∈ seen then false else is_vec_valid_loop (num :: seen) rest
    else is_vec_valid_loop seen rest

/-- Embedding of `is_vec_valid`: true iff no non-zero value occurs twice. -/
def is_vec_valid (vec : List Int) : Bool := is_vec_valid_loop [] vec

/-- Embedding of `get_subgrid_coor`: `(x1, y1, x2, y2)` with
`x1 = (xco/3)*3`, `y1 = (yco/3)*3`, `x2 = x1+3`, `y2 = y1+3`. -/
def get_subgrid_coor (xco yco : Nat) : Nat × Nat × Nat × Nat :=
  (xco / 3 * 3, yco / 3 * 3, xco / 3 * 3 + 3, yco / 3 * 3 + 3)

/-- Embedding of `is_loc_valid`.  Mirrors the source exactly, including the
call `get_subgrid(&sudoku, coor.0, coor.2, coor.1, coor.3)`, which passes the
column bounds `x1..x2` as row bounds and the row bounds `y1..y2` as column
bounds (the transposed subgrid). -/
def is_loc_valid (sudoku : Grid) (xco yco : Nat) : Bool :=
  let row := get_row sudoku yco
  let column := get_column sudoku xco
  let coor := get_subgrid_coor xco yco
  let subgrid := get_subgrid sudoku coor.1 coor.2.2.1 coor.2.1 coor.2.2.2
  is_vec_valid row && is_vec_valid column && is_vec_valid subgrid

/-- Embedding of `find_missing_numbers`: the numbers `1..=9` not among the
non-zero entries of `vec`, in ascending order. -/
def find_missing_numbers (vec : List Int) : List Int :=
  nums19.filter fun num => !(vec.filter (fun x => x != 0)).contains num

/-- Embedding of `common_numbers`.  The source intersects three `HashSet`s and
returns the elements in the set's (arbitrary) iteration order; every caller
passes `find_missing_numbers` results (which are duplicate-free) and only uses
the length and membership of the result, so the list below (the elements of
`vec1` also present in `vec2` and `vec3`, in `vec1`'s order) is an admissible
embedding. -/
def common_numbers (vec1 vec2 vec3 : List Int) : List Int :=
  (vec1.filter fun x => vec2.contains x).filter fun x => vec3.contains x

/-- Embedding of `get_all_missing_numbers`.  Note that, unlike `is_loc_valid`,
this one calls `get_subgrid(&sudoku, coor.1, coor.3, coor.0, coor.2)`, the
subgrid that actually contains the cell. -/
def get_all_missing_numbers (sudoku : Grid) (xco yco : Nat) : List Int :=
  let row := get_row sudoku yco
  let column := get_column sudoku xco
  let coor := get_subgrid_coor xco yco
  let subgrid := get_subgrid sudoku coor.2.1 coor.2.2.2 coor.1 coor.2.2.1
  common_numbers (find_missing_numbers row) (find_missing_numbers column)
    (find_missing_numbers subgrid)

/-- Embedding of `get_all_empty_fields`: `(column, row)` pairs of the zero
cells, scanning rows outer (bound `n = sudoku.len()`), columns inner (bound
`m = sudoku[0].len()`). -/
def get_all_empty_fields (sudoku : Grid) : List (Nat × Nat) :=
  (List.range sudoku.length).flatMap fun i =>
    (List.range (sudoku.headD []).length).filterMap fun j =>
      if getCell sudoku i j = 0 then some (j, i) else none

/-- Embedding of `num::integer::sqrt` (the floor square root), written as a
count so that it evaluates by kernel reduction; `isqrt_eq_sqrt` identifies it
with `Nat.sqrt`. -/
def isqrt (n : Nat) : Nat :=
  ((List.range' 1 n).filter fun k => k * k ≤ n).length

/-- Embedding of `check_if_sudoku_solved`: no empty cell, and every row, every
column and each `sqrt(m) × sqrt(n)` block of 3×3 subgrids contains all of
`1..=9`. -/
def check_if_sudoku_solved (sudoku : Grid) : Bool :=
  if (get_all_empty_fields sudoku).length > 0 then false
  else
    let n := sudoku.length
    let m := (sudoku.headD []).length
    ((List.range n).all fun i => nums19.all fun num => (get_row sudoku i).contains num) &&
    ((List.range m).all fun i => nums19.all fun num => (get_column sudoku i).contains num) &&
    ((List.range (isqrt m)).all fun i =>
      (List.range (isqrt n)).all fun j =>
        nums19.all fun num =>
          (get_subgrid sudoku (i * 3) ((i + 1) * 3) (j * 3) ((j + 1) * 3)).contains num)

/-- Embedding of `generate_full_sudoku` at `width = height = 9`.  The shuffled
permutation `numbers` and every later random draw are explicit parameters. -/
def generate_full_sudoku (numbers : List Int)
    (ra rb rc ca cb cc gr gc : List (Nat × Nat)) (rot_num : Int) : Grid :=
  let sudoku : Grid := List.replicate 9 (List.replicate 9 0)
  let sudoku := fill_row sudoku numbers 0 0
  let sudoku := fill_row sudoku numbers 1 3
  let sudoku := fill_row sudoku numbers 2 6
  let sudoku := fill_row sudoku numbers 3 1
  let sudoku := fill_row sudoku numbers 4 4
  let sudoku := fill_row sudoku numbers 5 7
  let sudoku := fill_row sudoku numbers 6 2
  let sudoku := fill_row sudoku numbers 7 5
  let sudoku := fill_row sudoku numbers 8 8
  let sudoku := flip_all_rows sudoku ra rb rc
  let sudoku := flip_all_columns sudoku ca cb cc
  let sudoku := flip_grid_rows sudoku gr
  let sudoku := flip_grid_columns sudoku gc
  random_rotate sudoku rot_num

/-- Body of one `for loc in all_empty_loc` iteration of the naked-single
propagation loop in `solve_sudoku`: fill the cell if it is still empty at
visit time and has exactly one candidate, setting the pass's `found` flag. -/
def nakedBody (s : Grid × Bool) (loc : Nat × Nat) : Grid × Bool :=
  if getCell s.1 loc.2 loc.1 = 0 then
    let all_missing_numbers := get_all_missing_numbers s.1 loc.1 loc.2
    if all_missing_numbers.length = 1 then
      (setCell s.1 loc.2 loc.1 (all_missing_numbers.getD 0 0), true)
    else s
  else s

/-- Single pass of the naked-single propagation loop in `solve_sudoku`: fold
`nakedBody` over the empty-cell list computed at the start of the pass; the
Boolean is the pass's `found` flag. -/
def nakedStep (g : Grid) : Grid × Bool :=
  (get_all_empty_fields g).foldl nakedBody (g, false)

/-- Fuelled propagation loop: repeat `nakedStep` until a pass sets nothing.
`none` is fuel exhaustion; `naked_fuel_sufficient` shows the fuel used by
`solveMid` always suffices, so the fuelled loop is the source's `loop`. -/
def nakedLoopF : Nat → Grid → Option Grid
  | 0, _ => none
  | fuel + 1, g =>
    let s := nakedStep g
    if s.2 then nakedLoopF fuel s.1 else some s.1

/-- One iteration of the backtracking loop of `solve_sudoku`, starting at the
top (`i += 1`).  `Sum.inr` is a `break` with the final grid, `Sum.inl` carries
the next state.  The cursor is an `i32` in the source and an `Int` here. -/
def btStepF (locs : List (Nat × Nat)) (g : Grid) (i : Int) : (Grid × Int) ⊕ Grid :=
  let i1 := i + 1
  let loc := locs.getD i1.toNat (0, 0)
  let var_check := getCell g loc.2 loc.1
  if var_check = 9 then
    let g2 := setCell g loc.2 loc.1 0
    let i2 := i1 - 2
    if i2 < -1 then Sum.inr g2
    else if i2 ≥ (locs.length : Int) - 1 then Sum.inr g2
    else Sum.inl (g2, i2)
  else
    let g2 := setCell g loc.2 loc.1 (var_check + 1)
    let i2 := if is_loc_valid g2 loc.1 loc.2 then i1 else i1 - 1
    if i2 ≥ (locs.length : Int) - 1 then Sum.inr g2
    else Sum.inl (g2, i2)

/-- Fuelled backtracking loop.  `none` is fuel exhaustion; `bt_fuel_sufficient`
shows the fuel used by `solveRun` always suffices. -/
def btLoopF : Nat → List (Nat × Nat) → Grid → Int → Option Grid
  | 0, _, _, _ => none
  | fuel + 1, locs, g, i =>
    match btStepF locs g i with
    | Sum.inr g2 => some g2
    | Sum.inl s => btLoopF fuel locs s.1 s.2

/-- Weight of a backtracking cell by distance from the end of the cell list:
`G 0 = 1`, `G (e+1) = 9 * G e + 2`.  Used for the termination measure. -/
def G : Nat → Nat
  | 0 => 1
  | e + 1 => 9 * G e + 2

/-- Sum of the weights `G (len-1-k), …, G (len-1-(k+m-1))`. -/
def sumW (len : Nat) : Nat → Nat → Nat
  | _, 0 => 0
  | k, m + 1 => G (len - 1 - k) + sumW len (k + 1) m

/-- Fuel for the backtracking loop on a cell list of length `len`: one more
than the measure of the initial (all-cells-empty, cursor 0) state. -/
def btFuel (len : Nat) : Nat := 9 * sumW len 0 len + 1

/-- State of `sudoku_to_solve` after the propagation loop and the forced
`sudoku_to_solve[0][0] = 0` write, i.e. just before the backtracking phase. -/
def solveMid (g : Grid) : Option Grid :=
  match nakedLoopF ((get_all_empty_fields g).length + 1) g with
  | none => none
  | some g1 => some (setCell g1 0 0 0)

/-- Final grid produced by `solve_sudoku`'s working clone. -/
def solveRun (g : Grid) : Option Grid :=
  match solveMid g with
  | none => none
  | some g2 =>
    let locs := get_all_empty_fields g2
    if locs.length > 0 then btLoopF (btFuel locs.length) locs g2 (-1) else some g2

/-- Embedding of `solve_sudoku`: the Boolean verdict
`check_if_sudoku_solved(sudoku_to_solve)`. -/
def solve_sudoku (sudoku_check : Grid) : Bool :=
  match solveRun sudoku_check with
  | some g3 => check_if_sudoku_solved g3
  | none => false

/-- Embedding of a call `solve_sudoku(&sudoku_check)` as seen by the caller:
the function clones the borrowed grid, mutates only the clone
(`sudoku_to_solve`), and returns a Boolean, so the caller's grid after the
call is the unchanged input. -/
def solve_sudoku_call (sudoku_check : Grid) : Grid × Bool :=
  (sudoku_check, solve_sudoku sudoku_check)

/-- Loop of `generate_sudoku_to_solve`.  Each iteration of the inner
cell-picking loop consumes one `(xco, yco)` draw pair; `none` means the
supplied draw sequence was exhausted before the loop finished ("the program
has not terminated yet on this draw sequence"). -/
def carveLoop : List (Nat × Nat) → Grid → Int → Int → Option Grid
  | draws, g, num_deleted, num_to_delete =>
    if num_deleted < num_to_delete then
      match draws with
      | [] => none
      | (xco, yco) :: rest =>
        if getCell g yco xco ≠ 0 then
          let old_val := getCell g yco xco
          let g2 := setCell g yco xco 0
          if solve_sudoku g2 then carveLoop rest g2 (num_deleted + 1) num_to_delete
          else carveLoop rest (setCell g2 yco xco old_val) num_deleted num_to_delete
        else carveLoop rest g num_deleted num_to_delete
    else some g

/-- Embedding of `generate_sudoku_to_solve`, with the random cell draws
explicit. -/
def generate_sudoku_to_solve (draws : List (Nat × Nat)) (filled_sudoku : Grid)
    (num_to_delete : Int) : Option Grid :=
  carveLoop draws filled_sudoku 0 num_to_delete

/-- Specification-level reading of `check_if_sudoku_solved` on a 9×9 grid:
no empty cell, and every row, every column and every 3×3 subgrid contains
each of 1–9. -/
def SolvedSpec (g : Grid) : Prop :=
  (∀ r < 9, ∀ c < 9, getCell g r c ≠ 0) ∧
  (∀ r < 9, ∀ v ∈ nums19, ∃ c, c < 9 ∧ getCell g r c = v) ∧
  (∀ c < 9, ∀ v ∈ nums19, ∃ r, r < 9 ∧ getCell g r c = v) ∧
  (∀ bi < 3, ∀ bj < 3, ∀ v ∈ nums19,
    ∃ r, r < 3 ∧ ∃ c, c < 3 ∧ getCell g (3 * bi + r) (3 * bj + c) = v)

theorem headD_eq_getD {α : Type} (l : List α) (d : α) : l.headD d = l.getD 0 d := by
  cases l <;> rfl

theorem contains_true {l : List Int} {a : Int} : l.contains a = true ↔ a ∈ l :=
  List.elem_iff

theorem isqrt_eq_sqrt (n : Nat) : isqrt n = Nat.sqrt n := by
  unfold isqrt
  have hpred : ∀ k ∈ List.range' 1 n,
      (decide (k * k ≤ n)) = decide (k ≤ Nat.sqrt n) := by
    intro k _
    simp only [decide_eq_decide]
    exact Nat.le_sqrt.symm
  rw [List.filter_congr hpred]
  have hs : Nat.sqrt n ≤ n := Nat.sqrt_le_self n
  have hsplit : List.range' 1 n =
      List.range' 1 (Nat.sqrt n) ++ List.range' (1 + Nat.sqrt n) (n - Nat.sqrt n) := by
    rw [List.range'_append_1]
    congr 1
    omega
  rw [hsplit, List.filter_append]
  have h1 : (List.range' 1 (Nat.sqrt n)).filter (fun k => decide (k ≤ Nat.sqrt n)) =
      List.range' 1 (Nat.sqrt n) := by
    rw [List.filter_eq_self]
    intro a ha
    rw [List.mem_range'_1] at ha
    simpa using by omega
  have h2 : (List.range' (1 + Nat.sqrt n) (n - Nat.sqrt n)).filter
      (fun k => decide (k ≤ Nat.sqrt n)) = [] := by
    rw [List.filter_eq_nil_iff]
    intro a ha
    rw [List.mem_range'_1] at ha
    simpa using by omega
  rw [h1, h2, List.length_append, List.length_range']
  rfl

theorem mem_get_row {g : Grid} {r : Nat} {v : Int} :
    v ∈ get_row g r ↔ ∃ i, i < g.length ∧ getCell g r i = v := by
  simp [get_row]

theorem mem_get_column {g : Grid} {c : Nat} {v : Int} :
    v ∈ get_column g c ↔ ∃ i, i < g.length ∧ getCell g i c = v := by
  simp [get_column]

theorem mem_get_subgrid {g : Grid} {r1 r2 c1 c2 : Nat} {v : Int} :
    v ∈ get_subgrid g r1 r2 c1 c2 ↔
      ∃ i, (r1 ≤ i ∧ i < r2) ∧ ∃ j, (c1 ≤ j ∧ j < c2) ∧ getCell g i j = v := by
  simp only [get_subgrid, List.mem_flatMap, List.mem_map, List.mem_range'_1]
  constructor
  · rintro ⟨i, hi, j, hj, hv⟩
    exact ⟨i, ⟨hi.1, by omega⟩, j, ⟨hj.1, by omega⟩, hv⟩
  · rintro ⟨i, hi, j, hj, hv⟩
    exact ⟨i, ⟨hi.1, by omega⟩, j, ⟨hj.1, by omega⟩, hv⟩

theorem mem_get_all_empty_fields {g : Grid} {p : Nat × Nat} :
    p ∈ get_all_empty_fields g ↔
      p.2 < g.length ∧ p.1 < (g.headD []).length ∧ getCell g p.2 p.1 = 0 := by
  obtain ⟨x, y⟩ := p
  simp only [get_all_empty_fields, List.mem_flatMap, List.mem_filterMap, List.mem_range]
  constructor
  · rintro ⟨i, hi, j, hj, hv⟩
    split at hv
    · simp only [Option.some.injEq, Prod.mk.injEq] at hv
      obtain ⟨rfl, rfl⟩ := hv
      exact ⟨hi, hj, by assumption⟩
    · simp at hv
  · rintro ⟨hy, hx, hv⟩
    exact ⟨y, hy, x, hx, by simp [hv]⟩

theorem get_all_empty_fields_eq_nil {g : Grid} :
    get_all_empty_fields g = [] ↔
      ∀ i < g.length, ∀ j < (g.headD []).length, getCell g i j ≠ 0 := by
  rw [List.eq_nil_iff_forall_not_mem]
  constructor
  · intro h i hi j hj hv
    exact h (j, i) (mem_get_all_empty_fields.mpr ⟨hi, hj, hv⟩)
  · rintro h ⟨x, y⟩ hp
    obtain ⟨hy, hx, hv⟩ := mem_get_all_empty_fields.mp hp
    exact h y hy x hx hv

theorem length_get_row {g : Grid} {r : Nat} : (get_row g r).length = g.length := by
  simp [get_row]

theorem length_get_column {g : Grid} {c : Nat} : (get_column g c).length = g.length := by
  simp [get_column]

theorem length_get_subgrid {g : Grid} {r1 r2 c1 c2 : Nat} :
    (get_subgrid g r1 r2 c1 c2).length = (r2 - r1) * (c2 - c1) := by
  simp only [get_subgrid, List.length_flatMap]
  have h : (List.length ∘ fun i =>
      List.map (fun j => getCell g i j) (List.range' c1 (c2 - c1))) =
      fun _ => c2 - c1 := by
    funext i; simp
  rw [h, List.map_const', List.sum_replicate, smul_eq_mul, List.length_range']

theorem is_vec_valid_loop_iff (l seen : List Int) :
    is_vec_valid_loop seen l = true ↔
      (l.filter fun x => x ≠ 0).Nodup ∧ ∀ x ∈ l, x ≠ 0 → x ∉ seen := by
  induction l generalizing seen with
  | nil => simp [is_vec_valid_loop]
  | cons n rest ih =>
    by_cases hn : n = 0
    · subst hn
      rw [is_vec_valid_loop, if_neg (by simp), ih]
      have hfil : List.filter (fun x => x ≠ 0) ((0 : Int) :: rest) =
          List.filter (fun x => x ≠ 0) rest := by simp
      rw [hfil]
      constructor
      · rintro ⟨h1, h2⟩
        refine ⟨h1, ?_⟩
        intro x hx h0
        rcases List.mem_cons.mp hx with rfl | hx2
        · exact absurd rfl h0
        · exact h2 x hx2 h0
      · rintro ⟨h1, h2⟩
        exact ⟨h1, fun x hx h0 => h2 x (List.mem_cons_of_mem _ hx) h0⟩
    · rw [is_vec_valid_loop, if_pos hn]
      by_cases hseen : n ∈ seen
      · rw [if_pos hseen]
        constructor
        · intro h; cases h
        · rintro ⟨h1, h2⟩
          exact absurd hseen (h2 n (List.mem_cons_self n rest) hn)
      · rw [if_neg hseen, ih]
        have hfil : List.filter (fun x => x ≠ 0) (n :: rest) =
            n :: List.filter (fun x => x ≠ 0) rest := by
          rw [List.filter_cons_of_pos (by simpa using hn)]
        rw [hfil, List.nodup_cons]
        constructor
        · rintro ⟨h1, h2⟩
          refine ⟨⟨?_, h1⟩, ?_⟩
          · intro hmem
            exact (h2 n (List.mem_filter.mp hmem).1 hn) (List.mem_cons_self n seen)
          · intro x hx hx0
            rcases List.mem_cons.mp hx with rfl | hx2
            · exact hseen
            · exact fun hs => (h2 x hx2 hx0) (List.mem_cons_of_mem n hs)
        · rintro ⟨⟨h0, h1⟩, h2⟩
          refine ⟨h1, ?_⟩
          intro x hx hx0 hmem
          rcases List.mem_cons.mp hmem with rfl | hmem2
          · exact h0 (List.mem_filter.mpr ⟨hx, by simpa using hx0⟩)
          · exact (h2 x (List.mem_cons_of_mem n hx) hx0) hmem2

theorem is_vec_valid_iff (l : List Int) :
    is_vec_valid l = true ↔ (l.filter fun x => x ≠ 0).Nodup := by
  rw [is_vec_valid, is_vec_valid_loop_iff]
  simp

theorem check_if_sudoku_solved_iff {g : Grid} (h : Shape9 g) :
    check_if_sudoku_solved g = true ↔ SolvedSpec g := by
  have hm : (g.headD []).length = 9 := by
    rw [headD_eq_getD]; exact row_length_shape h 0 (by norm_num)
  rw [check_if_sudoku_solved]
  by_cases hempty : (get_all_empty_fields g).length > 0
  · rw [if_pos hempty]
    simp only [Bool.false_eq_true, false_iff]
    intro hs
    obtain ⟨p, hp⟩ := List.exists_mem_of_length_pos hempty
    obtain ⟨h2, h1, h0⟩ := mem_get_all_empty_fields.mp hp
    rw [h.1] at h2; rw [hm] at h1
    exact hs.1 p.2 h2 p.1 h1 h0
  · rw [if_neg hempty]
    have hnil : get_all_empty_fields g = [] := by
      cases hlist : get_all_empty_fields g with
      | nil => rfl
      | cons a l => rw [hlist] at hempty; simp at hempty
    have hnz : ∀ r < 9, ∀ c < 9, getCell g r c ≠ 0 := by
      intro r hr c hc
      refine get_all_empty_fields_eq_nil.mp hnil r ?_ c ?_
      · rw [h.1]; exact hr
      · rw [hm]; exact hc
    simp only [h.1, hm, Bool.and_eq_true, List.all_eq_true, List.mem_range,
      contains_true, mem_get_row, mem_get_column, mem_get_subgrid,
      show isqrt 9 = 3 by decide]
    constructor
    · rintro ⟨⟨hA, hB⟩, hC⟩
      refine ⟨hnz, ?_, ?_, ?_⟩
      · intro r hr v hv
        obtain ⟨c, hc, hval⟩ := hA r hr v hv
        exact ⟨c, hc, hval⟩
      · intro c hc v hv
        obtain ⟨r, hr, hval⟩ := hB c hc v hv
        exact ⟨r, hr, hval⟩
      · intro bi hbi bj hbj v hv
        obtain ⟨r, hr, c, hc, hval⟩ := hC bi hbi bj hbj v hv
        refine ⟨r - 3 * bi, by omega, c - 3 * bj, by omega, ?_⟩
        have e1 : 3 * bi + (r - 3 * bi) = r := by omega
        have e2 : 3 * bj + (c - 3 * bj) = c := by omega
        rw [e1, e2]; exact hval
    · rintro ⟨-, hA, hB, hC⟩
      refine ⟨⟨?_, ?_⟩, ?_⟩
      · intro r hr v hv
        obtain ⟨c, hc, hval⟩ := hA r hr v hv
        exact ⟨c, hc, hval⟩
      · intro c hc v hv
        obtain ⟨r, hr, hval⟩ := hB c hc v hv
        exact ⟨r, hr, hval⟩
      · intro bi hbi bj hbj v hv
        obtain ⟨r, hr, c, hc, hval⟩ := hC bi hbi bj hbj v hv
        exact ⟨3 * bi + r, by omega, 3 * bj + c, by omega, hval⟩

theorem nums19_nodup : nums19.Nodup := by decide

theorem nums19_length : nums19.length = 9 := rfl

theorem perm_nums19_of_subset {l : List Int} (hlen : l.length = 9)
    (hsub : ∀ v ∈ nums19, v ∈ l) : l.Perm nums19 := by
  have hsp : List.Subperm nums19 l := List.subperm_of_subset nums19_nodup hsub
  exact (hsp.perm_of_length_le (by rw [hlen, nums19_length])).symm

theorem solved_row_perm {g : Grid} (h : Shape9 g) (hs : SolvedSpec g) (r : Nat) (hr : r < 9) :
    (get_row g r).Perm nums19 := by
  refine perm_nums19_of_subset (by rw [length_get_row, h.1]) ?_
  intro v hv
  obtain ⟨c, hc, hval⟩ := hs.2.1 r hr v hv
  exact mem_get_row.mpr ⟨c, by rw [h.1]; exact hc, hval⟩

theorem solved_column_perm {g : Grid} (h : Shape9 g) (hs : SolvedSpec g) (c : Nat) (hc : c < 9) :
    (get_column g c).Perm nums19 := by
  refine perm_nums19_of_subset (by rw [length_get_column, h.1]) ?_
  intro v hv
  obtain ⟨r, hr, hval⟩ := hs.2.2.1 c hc v hv
  exact mem_get_column.mpr ⟨r, by rw [h.1]; exact hr, hval⟩

theorem solved_subgrid_perm {g : Grid} (hs : SolvedSpec g) (bi bj : Nat)
    (hbi : bi < 3) (hbj : bj < 3) :
    (get_subgrid g (3 * bi) (3 * bi + 3) (3 * bj) (3 * bj + 3)).Perm nums19 := by
  refine perm_nums19_of_subset
    (by rw [length_get_subgrid, Nat.add_sub_cancel_left, Nat.add_sub_cancel_left]) ?_
  intro v hv
  obtain ⟨r, hr, c, hc, hval⟩ := hs.2.2.2 bi hbi bj hbj v hv
  exact mem_get_subgrid.mpr ⟨3 * bi + r, by omega, 3 * bj + c, by omega, hval⟩

theorem solved_cell_mem {g : Grid} (h : Shape9 g) (hs : SolvedSpec g) {r c : Nat}
    (hr : r < 9) (hc : c < 9) : getCell g r c ∈ nums19 := by
  have hmem : getCell g r c ∈ get_row g r :=
    mem_get_row.mpr ⟨c, by rw [h.1]; exact hc, rfl⟩
  exact (solved_row_perm h hs r hr).subset hmem

theorem mem_nums19_iff {v : Int} : v ∈ nums19 ↔ 1 ≤ v ∧ v ≤ 9 := by
  constructor
  · intro hv
    fin_cases hv <;> norm_num
  · intro hb
    simp only [nums19, List.mem_cons, List.mem_singleton]
    omega

/-- Index transposition: the effect of a swap of positions `a` and `b`. -/
def swapIdx (a b x : Nat) : Nat := if x = b then a else if x = a then b else x

theorem swapIdx_invol (a b x : Nat) : swapIdx a b (swapIdx a b x) = x := by
  unfold swapIdx
  split_ifs <;> omega

theorem swapIdx_lt {n a b x : Nat} (ha : a < n) (hb : b < n) (hx : x < n) :
    swapIdx a b x < n := by
  unfold swapIdx
  split_ifs <;> omega

theorem swapIdx_band {a b x : Nat} (hab : a / 3 = b / 3) :
    swapIdx a b x / 3 = x / 3 := by
  unfold swapIdx
  split_ifs <;> omega

theorem shape_set_row {g : Grid} (h : Shape9 g) (r : Nat) {row : List Int}
    (hrow : row.length = 9) : Shape9 (g.set r row) := by
  constructor
  · rw [List.length_set]; exact h.1
  · intro x hx
    rcases List.mem_or_eq_of_mem_set hx with h2 | h2
    · exact h.2 _ h2
    · rw [h2]; exact hrow

theorem shape_flip_row {g : Grid} (h : Shape9 g) {r1 r2 : Nat} (h1 : r1 < 9) (h2 : r2 < 9) :
    Shape9 (flip_row g r1 r2) := by
  unfold flip_row
  exact shape_set_row (shape_set_row h r1 (row_length_shape h r2 h2)) r2
    (row_length_shape h r1 h1)

theorem getCell_flip_row {g : Grid} {r1 r2 : Nat} (h1 : r1 < g.length) (h2 : r2 < g.length)
    (r c : Nat) : getCell (flip_row g r1 r2) r c = getCell g (swapIdx r1 r2 r) c := by
  unfold flip_row getCell swapIdx
  by_cases hb : r = r2
  · subst hb
    rw [getD_set_self _ _ _ _ (by rw [List.length_set]; exact h2), if_pos rfl]
  · rw [getD_set_ne _ _ _ _ _ (fun he => hb he.symm), if_neg hb]
    by_cases ha : r = r1
    · subst ha
      rw [getD_set_self _ _ _ _ h1, if_pos rfl]
    · rw [getD_set_ne _ _ _ _ _ (fun he => ha he.symm), if_neg ha]

theorem shape_flip_column {g : Grid} (h : Shape9 g) {c1 c2 : Nat} (h1 : c1 < 9) (h2 : c2 < 9) :
    Shape9 (flip_column g c1 c2) := by
  constructor
  · unfold flip_column; rw [List.length_map]; exact h.1
  · intro x hx
    unfold flip_column at hx
    obtain ⟨row, hrow, rfl⟩ := List.mem_map.mp hx
    rw [List.length_set, List.length_set]
    exact h.2 _ hrow

theorem getCell_flip_column {g : Grid} (h : Shape9 g) {c1 c2 : Nat} (h1 : c1 < 9) (h2 : c2 < 9)
    (r c : Nat) : getCell (flip_column g c1 c2) r c = getCell g r (swapIdx c1 c2 c) := by
  unfold flip_column getCell swapIdx
  by_cases hr : r < g.length
  · have hmap : ((g.map fun row =>
        (row.set c1 (row.getD c2 0)).set c2 (row.getD c1 0)).getD r []) =
        ((g.getD r []).set c1 ((g.getD r []).getD c2 0)).set c2 ((g.getD r []).getD c1 0) := by
      rw [getD_eq_getElem _ _ _ (by rw [List.length_map]; exact hr), List.getElem_map,
        getD_eq_getElem _ _ _ hr]
    rw [hmap]
    have hrl : (g.getD r []).length = 9 := row_length_shape h r (by rw [h.1] at hr; exact hr)
    by_cases hb : c = c2
    · subst hb
      rw [getD_set_self _ _ _ _ (by rw [List.length_set, hrl]; exact h2), if_pos rfl]
    · rw [getD_set_ne _ _ _ _ _ (fun he => hb he.symm), if_neg hb]
      by_cases ha : c = c1
      · subst ha
        rw [getD_set_self _ _ _ _ (by rw [hrl]; exact h1), if_pos rfl]
      · rw [getD_set_ne _ _ _ _ _ (fun he => ha he.symm), if_neg ha]
  · have houter : (g.map fun row =>
        (row.set c1 (row.getD c2 0)).set c2 (row.getD c1 0)).getD r [] = ([] : List Int) :=
      getD_eq_default _ _ _ (by rw [List.length_map]; exact Nat.le_of_not_lt hr)
    have houter2 : g.getD r [] = ([] : List Int) :=
      getD_eq_default _ _ _ (Nat.le_of_not_lt hr)
    rw [houter, houter2]
    simp

theorem headD_length_shape {g : Grid} (h : Shape9 g) : (g.headD []).length = 9 := by
  rw [headD_eq_getD]
  exact row_length_shape h 0 (by norm_num)

theorem getCell_grid_ofFn {f : Nat → Nat → Int} {R C r c : Nat} (hr : r < R) (hc : c < C) :
    getCell ((List.range R).map fun i => (List.range C).map fun j => f i j) r c = f r c := by
  have h1 : ((List.range R).map fun i => (List.range C).map fun j => f i j).getD r [] =
      (List.range C).map fun j => f r j := by
    rw [getD_eq_getElem _ _ _ (by simpa using hr), List.getElem_map, List.getElem_range]
  unfold getCell
  rw [h1, getD_eq_getElem _ _ _ (by simpa using hc), List.getElem_map, List.getElem_range]

theorem shape_rot90 {g : Grid} (h : Shape9 g) : Shape9 (rotate_90_degrees g) := by
  unfold rotate_90_degrees
  rw [headD_length_shape h, h.1]
  constructor
  · simp
  · intro row hrow
    obtain ⟨j, hj, rfl⟩ := List.mem_map.mp hrow
    simp

theorem shape_rot180 {g : Grid} (h : Shape9 g) : Shape9 (rotate_180_degrees g) := by
  unfold rotate_180_degrees
  rw [headD_length_shape h, h.1]
  constructor
  · simp
  · intro row hrow
    obtain ⟨j, hj, rfl⟩ := List.mem_map.mp hrow
    simp

theorem shape_rot270 {g : Grid} (h : Shape9 g) : Shape9 (rotate_270_degrees g) := by
  unfold rotate_270_degrees
  rw [headD_length_shape h, h.1]
  constructor
  · simp
  · intro row hrow
    obtain ⟨j, hj, rfl⟩ := List.mem_map.mp hrow
    simp

theorem getCell_rot90 {g : Grid} (h : Shape9 g) {r c : Nat} (hr : r < 9) (hc : c < 9) :
    getCell (rotate_90_degrees g) r c = getCell g (8 - c) r := by
  unfold rotate_90_degrees
  rw [headD_length_shape h, h.1, getCell_grid_ofFn hr hc]

theorem getCell_rot180 {g : Grid} (h : Shape9 g) {r c : Nat} (hr : r < 9) (hc : c < 9) :
    getCell (rotate_180_degrees g) r c = getCell g (8 - r) (8 - c) := by
  unfold rotate_180_degrees
  rw [headD_length_shape h, h.1, getCell_grid_ofFn hr hc]

theorem getCell_rot270 {g : Grid} (h : Shape9 g) {r c : Nat} (hr : r < 9) (hc : c < 9) :
    getCell (rotate_270_degrees g) r c = getCell g c (8 - r) := by
  unfold rotate_270_degrees
  rw [headD_length_shape h, h.1, getCell_grid_ofFn hr hc]

/-- Net index effect of a whole-band swap on a row (or column) index. -/
def bandSwapIdx (b1 b2 x : Nat) : Nat :=
  if x / 3 = b1 then 3 * b2 + x % 3 else if x / 3 = b2 then 3 * b1 + x % 3 else x

theorem bandSwapIdx_eq_swaps {b1 b2 : Nat} (hb1 : b1 < 3) (hb2 : b2 < 3) (r : Nat) :
    swapIdx (3 * b1) (3 * b2) (swapIdx (3 * b1 + 1) (3 * b2 + 1)
      (swapIdx (3 * b1 + 2) (3 * b2 + 2) r)) = bandSwapIdx b1 b2 r := by
  unfold swapIdx bandSwapIdx
  split_ifs <;> omega

theorem bandSwapIdx_invol {b1 b2 : Nat} (hb1 : b1 < 3) (hb2 : b2 < 3) (x : Nat) :
    bandSwapIdx b1 b2 (bandSwapIdx b1 b2 x) = x := by
  unfold bandSwapIdx
  split_ifs <;> omega

theorem bandSwapIdx_lt {b1 b2 x : Nat} (hb1 : b1 < 3) (hb2 : b2 < 3) (hx : x < 9) :
    bandSwapIdx b1 b2 x < 9 := by
  unfold bandSwapIdx
  split_ifs <;> omega

theorem bandSwapIdx_div {b1 b2 x : Nat} (hb1 : b1 < 3) (hb2 : b2 < 3) (hx : x < 9) :
    bandSwapIdx b1 b2 x / 3 = swapIdx b1 b2 (x / 3) := by
  unfold bandSwapIdx swapIdx
  split_ifs <;> omega

theorem length_flip_row (g : Grid) (a b : Nat) : (flip_row g a b).length = g.length := by
  unfold flip_row; rw [List.length_set, List.length_set]

theorem getCell_band_flip_rows {g : Grid} (hlen : g.length = 9) {b1 b2 : Nat}
    (hb1 : b1 < 3) (hb2 : b2 < 3) (r c : Nat) :
    getCell (band_flip_rows g b1 b2) r c = getCell g (bandSwapIdx b1 b2 r) c := by
  unfold band_flip_rows
  rw [getCell_flip_row (by rw [length_flip_row, length_flip_row]; omega)
      (by rw [length_flip_row, length_flip_row]; omega) r c,
    getCell_flip_row (by rw [length_flip_row]; omega) (by rw [length_flip_row]; omega) _ c,
    getCell_flip_row (by omega) (by omega) _ c,
    bandSwapIdx_eq_swaps hb1 hb2]

theorem shape_band_flip_rows {g : Grid} (h : Shape9 g) {b1 b2 : Nat}
    (hb1 : b1 < 3) (hb2 : b2 < 3) : Shape9 (band_flip_rows g b1 b2) := by
  unfold band_flip_rows
  exact shape_flip_row (shape_flip_row (shape_flip_row h (by omega) (by omega))
    (by omega) (by omega)) (by omega) (by omega)

theorem getCell_band_flip_columns {g : Grid} (h : Shape9 g) {b1 b2 : Nat}
    (hb1 : b1 < 3) (hb2 : b2 < 3) (r c : Nat) :
    getCell (band_flip_columns g b1 b2) r c = getCell g r (bandSwapIdx b1 b2 c) := by
  unfold band_flip_columns
  have s1 : Shape9 (flip_column g (3 * b1) (3 * b2)) :=
    shape_flip_column h (by omega) (by omega)
  have s2 : Shape9 (flip_column (flip_column g (3 * b1) (3 * b2)) (3 * b1 + 1) (3 * b2 + 1)) :=
    shape_flip_column s1 (by omega) (by omega)
  rw [getCell_flip_column s2 (by omega) (by omega) r c,
    getCell_flip_column s1 (by omega) (by omega) r _,
    getCell_flip_column h (by omega) (by omega) r _,
    bandSwapIdx_eq_swaps hb1 hb2]

theorem shape_band_flip_columns {g : Grid} (h : Shape9 g) {b1 b2 : Nat}
    (hb1 : b1 < 3) (hb2 : b2 < 3) : Shape9 (band_flip_columns g b1 b2) := by
  unfold band_flip_columns
  exact shape_flip_column (shape_flip_column (shape_flip_column h (by omega) (by omega))
    (by omega) (by omega)) (by omega) (by omega)

theorem solvedspec_row_perm {g g2 : Grid} (τ σ : Nat → Nat)
    (hτlt : ∀ x, x < 9 → τ x < 9) (hτinv : ∀ x, x < 9 → τ (τ x) = x)
    (hσlt : ∀ b, b < 3 → σ b < 3) (hσinv : ∀ b, b < 3 → σ (σ b) = b)
    (hband : ∀ x, x < 9 → τ x / 3 = σ (x / 3))
    (hpt : ∀ r c, r < 9 → c < 9 → getCell g2 r c = getCell g (τ r) c)
    (hs : SolvedSpec g) : SolvedSpec g2 := by
  refine ⟨?_, ?_, ?_, ?_⟩
  · intro r hr c hc
    rw [hpt r c hr hc]
    exact hs.1 (τ r) (hτlt r hr) c hc
  · intro r hr v hv
    obtain ⟨c, hc, hval⟩ := hs.2.1 (τ r) (hτlt r hr) v hv
    exact ⟨c, hc, by rw [hpt r c hr hc]; exact hval⟩
  · intro c hc v hv
    obtain ⟨r, hr, hval⟩ := hs.2.2.1 c hc v hv
    refine ⟨τ r, hτlt r hr, ?_⟩
    rw [hpt (τ r) c (hτlt r hr) hc, hτinv r hr]
    exact hval
  · intro bi hbi bj hbj v hv
    obtain ⟨r, hr3, c, hc3, hval⟩ := hs.2.2.2 (σ bi) (hσlt bi hbi) bj hbj v hv
    have hσbi : σ bi < 3 := hσlt bi hbi
    have hrow9 : 3 * σ bi + r < 9 := by omega
    have hx9 : τ (3 * σ bi + r) < 9 := hτlt _ hrow9
    have hxband : τ (3 * σ bi + r) / 3 = bi := by
      rw [hband _ hrow9]
      have hdiv : (3 * σ bi + r) / 3 = σ bi := by omega
      rw [hdiv, hσinv bi hbi]
    refine ⟨τ (3 * σ bi + r) - 3 * bi, by omega, c, hc3, ?_⟩
    have hxe : 3 * bi + (τ (3 * σ bi + r) - 3 * bi) = τ (3 * σ bi + r) := by omega
    rw [hxe, hpt _ _ hx9 (by omega), hτinv _ hrow9]
    exact hval

theorem solvedspec_col_perm {g g2 : Grid} (τ σ : Nat → Nat)
    (hτlt : ∀ x, x < 9 → τ x < 9) (hτinv : ∀ x, x < 9 → τ (τ x) = x)
    (hσlt : ∀ b, b < 3 → σ b < 3) (hσinv : ∀ b, b < 3 → σ (σ b) = b)
    (hband : ∀ x, x < 9 → τ x / 3 = σ (x / 3))
    (hpt : ∀ r c, r < 9 → c < 9 → getCell g2 r c = getCell g r (τ c))
    (hs : SolvedSpec g) : SolvedSpec g2 := by
  refine ⟨?_, ?_, ?_, ?_⟩
  · intro r hr c hc
    rw [hpt r c hr hc]
    exact hs.1 r hr (τ c) (hτlt c hc)
  · intro r hr v hv
    obtain ⟨c, hc, hval⟩ := hs.2.1 r hr v hv
    refine ⟨τ c, hτlt c hc, ?_⟩
    rw [hpt r (τ c) hr (hτlt c hc), hτinv c hc]
    exact hval
  · intro c hc v hv
    obtain ⟨r, hr, hval⟩ := hs.2.2.1 (τ c) (hτlt c hc) v hv
    exact ⟨r, hr, by rw [hpt r c hr hc]; exact hval⟩
  · intro bi hbi bj hbj v hv
    obtain ⟨r, hr3, c, hc3, hval⟩ := hs.2.2.2 bi hbi (σ bj) (hσlt bj hbj) v hv
    have hσbj : σ bj < 3 := hσlt bj hbj
    have hcol9 : 3 * σ bj + c < 9 := by omega
    have hx9 : τ (3 * σ bj + c) < 9 := hτlt _ hcol9
    have hxband : τ (3 * σ bj + c) / 3 = bj := by
      rw [hband _ hcol9]
      have hdiv : (3 * σ bj + c) / 3 = σ bj := by omega
      rw [hdiv, hσinv bj hbj]
    refine ⟨r, hr3, τ (3 * σ bj + c) - 3 * bj, by omega, ?_⟩
    have hxe : 3 * bj + (τ (3 * σ bj + c) - 3 * bj) = τ (3 * σ bj + c) := by omega
    rw [hxe, hpt _ _ (by omega) hx9, hτinv _ hcol9]
    exact hval

theorem solvedspec_rot90 {g : Grid} (h : Shape9 g) (hs : SolvedSpec g) :
    SolvedSpec (rotate_90_degrees g) := by
  have hpt : ∀ r c, r < 9 → c < 9 →
      getCell (rotate_90_degrees g) r c = getCell g (8 - c) r :=
    fun r c hr hc => getCell_rot90 h hr hc
  refine ⟨?_, ?_, ?_, ?_⟩
  · intro r hr c hc
    rw [hpt r c hr hc]
    exact hs.1 (8 - c) (by omega) r hr
  · intro r hr v hv
    obtain ⟨i, hi, hval⟩ := hs.2.2.1 r hr v hv
    refine ⟨8 - i, by omega, ?_⟩
    rw [hpt r (8 - i) hr (by omega)]
    have he : 8 - (8 - i) = i := by omega
    rw [he]; exact hval
  · intro c hc v hv
    obtain ⟨j, hj, hval⟩ := hs.2.1 (8 - c) (by omega) v hv
    refine ⟨j, hj, ?_⟩
    rw [hpt j c hj hc]
    exact hval
  · intro bi hbi bj hbj v hv
    obtain ⟨r0, hr0, c0, hc0, hval⟩ := hs.2.2.2 (2 - bj) (by omega) bi hbi v hv
    refine ⟨c0, hc0, 2 - r0, by omega, ?_⟩
    rw [hpt _ _ (by omega) (by omega)]
    have he : 8 - (3 * bj + (2 - r0)) = 3 * (2 - bj) + r0 := by omega
    rw [he]; exact hval

theorem solvedspec_rot180 {g : Grid} (h : Shape9 g) (hs : SolvedSpec g) :
    SolvedSpec (rotate_180_degrees g) := by
  have hpt : ∀ r c, r < 9 → c < 9 →
      getCell (rotate_180_degrees g) r c = getCell g (8 - r) (8 - c) :=
    fun r c hr hc => getCell_rot180 h hr hc
  refine ⟨?_, ?_, ?_, ?_⟩
  · intro r hr c hc
    rw [hpt r c hr hc]
    exact hs.1 (8 - r) (by omega) (8 - c) (by omega)
  · intro r hr v hv
    obtain ⟨c0, hc0, hval⟩ := hs.2.1 (8 - r) (by omega) v hv
    refine ⟨8 - c0, by omega, ?_⟩
    rw [hpt r (8 - c0) hr (by omega)]
    have he : 8 - (8 - c0) = c0 := by omega
    rw [he]; exact hval
  · intro c hc v hv
    obtain ⟨r0, hr0, hval⟩ := hs.2.2.1 (8 - c) (by omega) v hv
    refine ⟨8 - r0, by omega, ?_⟩
    rw [hpt (8 - r0) c (by omega) hc]
    have he : 8 - (8 - r0) = r0 := by omega
    rw [he]; exact hval
  · intro bi hbi bj hbj v hv
    obtain ⟨r0, hr0, c0, hc0, hval⟩ := hs.2.2.2 (2 - bi) (by omega) (2 - bj) (by omega) v hv
    refine ⟨2 - r0, by omega, 2 - c0, by omega, ?_⟩
    rw [hpt _ _ (by omega) (by omega)]
    have he1 : 8 - (3 * bi + (2 - r0)) = 3 * (2 - bi) + r0 := by omega
    have he2 : 8 - (3 * bj + (2 - c0)) = 3 * (2 - bj) + c0 := by omega
    rw [he1, he2]; exact hval

theorem solvedspec_rot270 {g : Grid} (h : Shape9 g) (hs : SolvedSpec g) :
    SolvedSpec (rotate_270_degrees g) := by
  have hpt : ∀ r c, r < 9 → c < 9 →
      getCell (rotate_270_degrees g) r c = getCell g c (8 - r) :=
    fun r c hr hc => getCell_rot270 h hr hc
  refine ⟨?_, ?_, ?_, ?_⟩
  · intro r hr c hc
    rw [hpt r c hr hc]
    exact hs.1 c hc (8 - r) (by omega)
  · intro r hr v hv
    obtain ⟨r0, hr0, hval⟩ := hs.2.2.1 (8 - r) (by omega) v hv
    refine ⟨r0, hr0, ?_⟩
    rw [hpt r r0 hr hr0]
    exact hval
  · intro c hc v hv
    obtain ⟨j, hj, hval⟩ := hs.2.1 c hc v hv
    refine ⟨8 - j, by omega, ?_⟩
    rw [hpt (8 - j) c (by omega) hc]
    have he : 8 - (8 - j) = j := by omega
    rw [he]; exact hval
  · intro bi hbi bj hbj v hv
    obtain ⟨r0, hr0, c0, hc0, hval⟩ := hs.2.2.2 bj hbj (2 - bi) (by omega) v hv
    refine ⟨2 - c0, by omega, r0, hr0, ?_⟩
    rw [hpt _ _ (by omega) (by omega)]
    have he : 8 - (3 * bi + (2 - c0)) = 3 * (2 - bi) + c0 := by omega
    rw [he]; exact hval

theorem solved_flip_row {g : Grid} {r1 r2 : Nat} (h : Shape9 g)
    (hsol : check_if_sudoku_solved g = true) (h1 : r1 < 9) (h2 : r2 < 9)
    (hband : r1 / 3 = r2 / 3) : check_if_sudoku_solved (flip_row g r1 r2) = true := by
  have hs := (check_if_sudoku_solved_iff h).mp hsol
  have hshape := shape_flip_row h h1 h2
  rw [check_if_sudoku_solved_iff hshape]
  refine solvedspec_row_perm (swapIdx r1 r2) id ?_ ?_ ?_ ?_ ?_ ?_ hs
  · intro x hx; exact swapIdx_lt h1 h2 hx
  · intro x hx; exact swapIdx_invol r1 r2 x
  · intro b hb; exact hb
  · intro b hb; rfl
  · intro x hx; exact swapIdx_band hband
  · intro r c hr hc
    exact getCell_flip_row (by rw [h.1]; exact h1) (by rw [h.1]; exact h2) r c

theorem solved_flip_column {g : Grid} {c1 c2 : Nat} (h : Shape9 g)
    (hsol : check_if_sudoku_solved g = true) (h1 : c1 < 9) (h2 : c2 < 9)
    (hband : c1 / 3 = c2 / 3) : check_if_sudoku_solved (flip_column g c1 c2) = true := by
  have hs := (check_if_sudoku_solved_iff h).mp hsol
  have hshape := shape_flip_column h h1 h2
  rw [check_if_sudoku_solved_iff hshape]
  refine solvedspec_col_perm (swapIdx c1 c2) id ?_ ?_ ?_ ?_ ?_ ?_ hs
  · intro x hx; exact swapIdx_lt h1 h2 hx
  · intro x hx; exact swapIdx_invol c1 c2 x
  · intro b hb; exact hb
  · intro b hb; rfl
  · intro x hx; exact swapIdx_band hband
  · intro r c hr hc
    exact getCell_flip_column h h1 h2 r c

theorem solved_band_flip_rows {g : Grid} {b1 b2 : Nat} (h : Shape9 g)
    (hsol : check_if_sudoku_solved g = true) (hb1 : b1 < 3) (hb2 : b2 < 3) :
    check_if_sudoku_solved (band_flip_rows g b1 b2) = true := by
  have hs := (check_if_sudoku_solved_iff h).mp hsol
  have hshape := shape_band_flip_rows h hb1 hb2
  rw [check_if_sudoku_solved_iff hshape]
  refine solvedspec_row_perm (bandSwapIdx b1 b2) (swapIdx b1 b2) ?_ ?_ ?_ ?_ ?_ ?_ hs
  · intro x hx; exact bandSwapIdx_lt hb1 hb2 hx
  · intro x hx; exact bandSwapIdx_invol hb1 hb2 x
  · intro b hb; exact swapIdx_lt hb1 hb2 hb
  · intro b hb; exact swapIdx_invol b1 b2 b
  · intro x hx; exact bandSwapIdx_div hb1 hb2 hx
  · intro r c hr hc
    exact getCell_band_flip_rows h.1 hb1 hb2 r c

theorem solved_band_flip_columns {g : Grid} {b1 b2 : Nat} (h : Shape9 g)
    (hsol : check_if_sudoku_solved g = true) (hb1 : b1 < 3) (hb2 : b2 < 3) :
    check_if_sudoku_solved (band_flip_columns g b1 b2) = true := by
  have hs := (check_if_sudoku_solved_iff h).mp hsol
  have hshape := shape_band_flip_columns h hb1 hb2
  rw [check_if_sudoku_solved_iff hshape]
  refine solvedspec_col_perm (bandSwapIdx b1 b2) (swapIdx b1 b2) ?_ ?_ ?_ ?_ ?_ ?_ hs
  · intro x hx; exact bandSwapIdx_lt hb1 hb2 hx
  · intro x hx; exact bandSwapIdx_invol hb1 hb2 x
  · intro b hb; exact swapIdx_lt hb1 hb2 hb
  · intro b hb; exact swapIdx_invol b1 b2 b
  · intro x hx; exact bandSwapIdx_div hb1 hb2 hx
  · intro r c hr hc
    exact getCell_band_flip_columns h hb1 hb2 r c

theorem solved_rot90 {g : Grid} (h : Shape9 g) (hsol : check_if_sudoku_solved g = true) :
    check_if_sudoku_solved (rotate_90_degrees g) = true := by
  rw [check_if_sudoku_solved_iff (shape_rot90 h)]
  exact solvedspec_rot90 h ((check_if_sudoku_solved_iff h).mp hsol)

theorem solved_rot180 {g : Grid} (h : Shape9 g) (hsol : check_if_sudoku_solved g = true) :
    check_if_sudoku_solved (rotate_180_degrees g) = true := by
  rw [check_if_sudoku_solved_iff (shape_rot180 h)]
  exact solvedspec_rot180 h ((check_if_sudoku_solved_iff h).mp hsol)

theorem solved_rot270 {g : Grid} (h : Shape9 g) (hsol : check_if_sudoku_solved g = true) :
    check_if_sudoku_solved (rotate_270_degrees g) = true := by
  rw [check_if_sudoku_solved_iff (shape_rot270 h)]
  exact solvedspec_rot270 h ((check_if_sudoku_solved_iff h).mp hsol)

/-- Squareness predicate for `Vec<Vec<i32>>` grids (the rotations only avoid a
panic, and the 180-degree scatter only covers every target cell, on square
grids). -/
def Square (g : Grid) : Prop := ∀ row ∈ g, row.length = g.length

theorem square_headD {g : Grid} (hsq : Square g) : (g.headD []).length = g.length := by
  cases g with
  | nil => rfl
  | cons r t => exact hsq r (List.mem_cons_self r t)

theorem length_rot90 {g : Grid} (hsq : Square g) :
    (rotate_90_degrees g).length = g.length := by
  unfold rotate_90_degrees
  rw [square_headD hsq]
  simp

theorem getD_rot90 {g : Grid} (hsq : Square g) {a : Nat} (ha : a < g.length) :
    ((rotate_90_degrees g).getD a []).length = g.length := by
  unfold rotate_90_degrees
  rw [square_headD hsq]
  rw [getD_eq_getElem _ _ _ (by simpa using ha), List.getElem_map]
  simp

theorem square_rot90 {g : Grid} (hsq : Square g) : Square (rotate_90_degrees g) := by
  intro row hrow
  unfold rotate_90_degrees at hrow ⊢
  rw [square_headD hsq] at hrow ⊢
  obtain ⟨j, hj, rfl⟩ := List.mem_map.mp hrow
  simp

theorem getCell_rot90_sq {g : Grid} (hsq : Square g) {a b : Nat} (ha : a < g.length)
    (hb : b < g.length) :
    getCell (rotate_90_degrees g) a b = getCell g (g.length - 1 - b) a := by
  unfold rotate_90_degrees
  rw [square_headD hsq]
  exact getCell_grid_ofFn ha hb

theorem getCell_rot180_sq {g : Grid} (hsq : Square g) {a b : Nat} (ha : a < g.length)
    (hb : b < g.length) :
    getCell (rotate_180_degrees g) a b = getCell g (g.length - 1 - a) (g.length - 1 - b) := by
  unfold rotate_180_degrees
  rw [square_headD hsq]
  exact getCell_grid_ofFn ha hb

theorem getCell_rot270_sq {g : Grid} (hsq : Square g) {a b : Nat} (ha : a < g.length)
    (hb : b < g.length) :
    getCell (rotate_270_degrees g) a b = getCell g b (g.length - 1 - a) := by
  unfold rotate_270_degrees
  rw [square_headD hsq]
  exact getCell_grid_ofFn ha hb

theorem grid_ext {g h : Grid} (hlen : g.length = h.length)
    (hrow : ∀ i, i < g.length → (g.getD i []).length = (h.getD i []).length)
    (hcell : ∀ i j, i < g.length → j < (g.getD i []).length → getCell g i j = getCell h i j) :
    g = h := by
  apply List.ext_getElem hlen
  intro i h1 h2
  have hrl : (g.getD i []).length = (h.getD i []).length := hrow i h1
  rw [getD_eq_getElem _ _ _ h1, getD_eq_getElem _ _ _ h2] at hrl
  apply List.ext_getElem hrl
  intro j j1 j2
  have hc := hcell i j h1 (by rw [getD_eq_getElem _ _ _ h1]; exact j1)
  unfold getCell at hc
  rw [getD_eq_getElem _ _ _ h1, getD_eq_getElem _ _ _ h2] at hc
  rw [getD_eq_getElem _ _ _ j1, getD_eq_getElem _ _ _ j2] at hc
  exact hc

theorem length_rot180 {g : Grid} (hsq : Square g) :
    (rotate_180_degrees g).length = g.length := by
  unfold rotate_180_degrees
  rw [square_headD hsq]
  simp

theorem getD_rot180 {g : Grid} (hsq : Square g) {a : Nat} (ha : a < g.length) :
    ((rotate_180_degrees g).getD a []).length = g.length := by
  unfold rotate_180_degrees
  rw [square_headD hsq]
  rw [getD_eq_getElem _ _ _ (by simpa using ha), List.getElem_map]
  simp

theorem length_rot270 {g : Grid} (hsq : Square g) :
    (rotate_270_degrees g).length = g.length := by
  unfold rotate_270_degrees
  rw [square_headD hsq]
  simp

theorem getD_rot270 {g : Grid} (hsq : Square g) {a : Nat} (ha : a < g.length) :
    ((rotate_270_degrees g).getD a []).length = g.length := by
  unfold rotate_270_degrees
  rw [square_headD hsq]
  rw [getD_eq_getElem _ _ _ (by simpa using ha), List.getElem_map]
  simp

theorem rot180_eq_rot90_twice {g : Grid} (hsq : Square g) :
    rotate_180_degrees g = rotate_90_degrees (rotate_90_degrees g) := by
  have hsq1 : Square (rotate_90_degrees g) := square_rot90 hsq
  have hl1 : (rotate_90_degrees g).length = g.length := length_rot90 hsq
  refine grid_ext ?_ ?_ ?_
  · rw [length_rot180 hsq, length_rot90 hsq1, hl1]
  · intro i hi
    rw [length_rot180 hsq] at hi
    rw [getD_rot180 hsq hi, getD_rot90 hsq1 (by rw [hl1]; exact hi), hl1]
  · intro i j hi hj
    rw [length_rot180 hsq] at hi
    rw [getD_rot180 hsq hi] at hj
    rw [getCell_rot180_sq hsq hi hj,
      getCell_rot90_sq hsq1 (by rw [hl1]; exact hi) (by rw [hl1]; exact hj), hl1,
      getCell_rot90_sq hsq (by omega) hi]

theorem rot270_eq_rot90_thrice {g : Grid} (hsq : Square g) :
    rotate_270_degrees g = rotate_90_degrees (rotate_90_degrees (rotate_90_degrees g)) := by
  have hsq1 : Square (rotate_90_degrees g) := square_rot90 hsq
  have hsq2 : Square (rotate_90_degrees (rotate_90_degrees g)) := square_rot90 hsq1
  have hl1 : (rotate_90_degrees g).length = g.length := length_rot90 hsq
  have hl2 : (rotate_90_degrees (rotate_90_degrees g)).length = g.length := by
    rw [length_rot90 hsq1, hl1]
  refine grid_ext ?_ ?_ ?_
  · rw [length_rot270 hsq, length_rot90 hsq2, hl2]
  · intro i hi
    rw [length_rot270 hsq] at hi
    rw [getD_rot270 hsq hi, getD_rot90 hsq2 (by rw [hl2]; exact hi), hl2]
  · intro i j hi hj
    rw [length_rot270 hsq] at hi
    rw [getD_rot270 hsq hi] at hj
    rw [getCell_rot270_sq hsq hi hj,
      getCell_rot90_sq hsq2 (by rw [hl2]; exact hi) (by rw [hl2]; exact hj), hl2,
      getCell_rot90_sq hsq1 (by rw [hl1]; omega) (by rw [hl1]; exact hi), hl1,
      getCell_rot90_sq hsq (by omega) (by omega),
      show g.length - 1 - (g.length - 1 - j) = j by omega]

theorem exists_cons_of_length_int {n : Nat} {l : List Int} (h : l.length = n + 1) :
    ∃ (a : Int) (t : List Int), l = a :: t ∧ t.length = n := by
  cases l with
  | nil => exact absurd h (by simp)
  | cons a t => exact ⟨a, t, rfl, by simpa using h⟩

theorem exists_nine {l : List Int} (h : l.length = 9) :
    ∃ a1 a2 a3 a4 a5 a6 a7 a8 a9, l = [a1, a2, a3, a4, a5, a6, a7, a8, a9] := by
  obtain ⟨a1, t1, rfl, h1⟩ := exists_cons_of_length_int h
  obtain ⟨a2, t2, rfl, h2⟩ := exists_cons_of_length_int h1
  obtain ⟨a3, t3, rfl, h3⟩ := exists_cons_of_length_int h2
  obtain ⟨a4, t4, rfl, h4⟩ := exists_cons_of_length_int h3
  obtain ⟨a5, t5, rfl, h5⟩ := exists_cons_of_length_int h4
  obtain ⟨a6, t6, rfl, h6⟩ := exists_cons_of_length_int h5
  obtain ⟨a7, t7, rfl, h7⟩ := exists_cons_of_length_int h6
  obtain ⟨a8, t8, rfl, h8⟩ := exists_cons_of_length_int h7
  obtain ⟨a9, t9, rfl, h9⟩ := exists_cons_of_length_int h8
  exact ⟨a1, a2, a3, a4, a5, a6, a7, a8, a9, by rw [List.eq_nil_of_length_eq_zero h9]⟩

/-- Value relabelling of a grid (proof infrastructure: the seed grid for an
arbitrary shuffled permutation is the relabelling of the seed grid for
`[1,…,9]`). -/
def mapGrid (φ : Int → Int) (g : Grid) : Grid := g.map (List.map φ)

theorem mapGrid_getD (φ : Int → Int) (g : Grid) (r : Nat) :
    (mapGrid φ g).getD r [] = (g.getD r []).map φ := by
  induction g generalizing r with
  | nil => simp [mapGrid]
  | cons row t ih =>
    cases r with
    | zero => simp [mapGrid]
    | succ n =>
      simp only [mapGrid, List.map_cons, List.getD_cons_succ]
      exact ih n

theorem mapGrid_setCell (φ : Int → Int) (g : Grid) (r c : Nat) (v : Int) :
    mapGrid φ (setCell g r c v) = setCell (mapGrid φ g) r c (φ v) := by
  show (g.set r ((g.getD r []).set c v)).map (List.map φ) =
    (g.map (List.map φ)).set r (((g.map (List.map φ)).getD r []).set c (φ v))
  have hrow : (g.map (List.map φ)).getD r [] = (g.getD r []).map φ := mapGrid_getD φ g r
  rw [List.map_set, List.map_set, hrow]

theorem shape_mapGrid {g : Grid} (h : Shape9 g) (φ : Int → Int) : Shape9 (mapGrid φ g) := by
  constructor
  · unfold mapGrid; rw [List.length_map]; exact h.1
  · intro row hrow
    unfold mapGrid at hrow
    obtain ⟨r0, hr0, rfl⟩ := List.mem_map.mp hrow
    rw [List.length_map]
    exact h.2 _ hr0

theorem getCell_mapGrid (φ : Int → Int) {g : Grid} (h : Shape9 g) {r c : Nat}
    (hr : r < 9) (hc : c < 9) : getCell (mapGrid φ g) r c = φ (getCell g r c) := by
  unfold getCell
  rw [mapGrid_getD]
  have hcl : c < (g.getD r []).length := by rw [row_length_shape h r hr]; exact hc
  rw [getD_eq_getElem _ _ _ (by rw [List.length_map]; exact hcl),
    getD_eq_getElem _ _ _ hcl, List.getElem_map]

theorem solvedspec_relabel {g : Grid} (φ : Int → Int) (h : Shape9 g)
    (hsur : ∀ v ∈ nums19, ∃ w, w ∈ nums19 ∧ φ w = v)
    (hnz : ∀ v ∈ nums19, φ v ≠ 0)
    (hs : SolvedSpec g) : SolvedSpec (mapGrid φ g) := by
  refine ⟨?_, ?_, ?_, ?_⟩
  · intro r hr c hc
    rw [getCell_mapGrid φ h hr hc]
    exact hnz _ (solved_cell_mem h hs hr hc)
  · intro r hr v hv
    obtain ⟨w, hw, hφw⟩ := hsur v hv
    obtain ⟨c, hc, hval⟩ := hs.2.1 r hr w hw
    refine ⟨c, hc, ?_⟩
    rw [getCell_mapGrid φ h hr hc, hval, hφw]
  · intro c hc v hv
    obtain ⟨w, hw, hφw⟩ := hsur v hv
    obtain ⟨r, hr, hval⟩ := hs.2.2.1 c hc w hw
    refine ⟨r, hr, ?_⟩
    rw [getCell_mapGrid φ h hr hc, hval, hφw]
  · intro bi hbi bj hbj v hv
    obtain ⟨w, hw, hφw⟩ := hsur v hv
    obtain ⟨r, hr, c, hc, hval⟩ := hs.2.2.2 bi hbi bj hbj w hw
    refine ⟨r, hr, c, hc, ?_⟩
    rw [getCell_mapGrid φ h (by omega) (by omega), hval, hφw]

theorem fill_row_mapGrid (φ : Int → Int) (g : Grid) (numbers : List Int) (ri off : Nat) :
    fill_row (mapGrid φ g) (numbers.map φ) ri off = mapGrid φ (fill_row g numbers ri off) := by
  unfold fill_row
  rw [List.enum_map, List.foldl_map]
  refine List.foldl_hom (mapGrid φ) _ _ numbers.enum g ?_
  intro x y
  exact (mapGrid_setCell φ x ri
    (if y.1 + off ≥ 9 then y.1 + off - 9 else y.1 + off) y.2).symm

/-- Seed construction of `generate_full_sudoku`: the nine `fill_row` calls with
column offsets 0, 3, 6, 1, 4, 7, 2, 5, 8 on a zeroed 9×9 grid. -/
def seed_sudoku (numbers : List Int) : Grid :=
  fill_row (fill_row (fill_row (fill_row (fill_row (fill_row (fill_row (fill_row (fill_row
    (List.replicate 9 (List.replicate 9 0)) numbers 0 0) numbers 1 3) numbers 2 6)
    numbers 3 1) numbers 4 4) numbers 5 7) numbers 6 2) numbers 7 5) numbers 8 8

theorem generate_full_sudoku_eq (numbers : List Int)
    (ra rb rc ca cb cc gr gc : List (Nat × Nat)) (rot : Int) :
    generate_full_sudoku numbers ra rb rc ca cb cc gr gc rot =
    random_rotate (flip_grid_columns (flip_grid_rows (flip_all_columns
      (flip_all_rows (seed_sudoku numbers) ra rb rc) ca cb cc) gr) gc) rot := rfl

theorem seed_sudoku_relabel {numbers : List Int} (hlen : numbers.length = 9) :
    seed_sudoku numbers =
    mapGrid (fun v => if v = 0 then 0 else numbers.getD (v - 1).toNat 0)
      (seed_sudoku nums19) := by
  obtain ⟨n1, n2, n3, n4, n5, n6, n7, n8, n9, rfl⟩ := exists_nine hlen
  have hmapn : nums19.map
      (fun v => if v = 0 then 0 else
        [n1, n2, n3, n4, n5, n6, n7, n8, n9].getD (v - 1).toNat 0) =
      [n1, n2, n3, n4, n5, n6, n7, n8, n9] := rfl
  have hzero : mapGrid
      (fun v => if v = 0 then 0 else
        [n1, n2, n3, n4, n5, n6, n7, n8, n9].getD (v - 1).toNat 0)
      (List.replicate 9 (List.replicate 9 0)) = List.replicate 9 (List.replicate 9 0) := by
    unfold mapGrid
    rw [List.map_replicate, List.map_replicate]
    rfl
  unfold seed_sudoku
  rw [← fill_row_mapGrid, ← fill_row_mapGrid, ← fill_row_mapGrid, ← fill_row_mapGrid,
    ← fill_row_mapGrid, ← fill_row_mapGrid, ← fill_row_mapGrid, ← fill_row_mapGrid,
    ← fill_row_mapGrid, hmapn, hzero]

theorem seed_id_shape : Shape9 (seed_sudoku nums19) := by decide

theorem seed_id_solved : check_if_sudoku_solved (seed_sudoku nums19) = true := by decide

theorem seed_sudoku_solved {numbers : List Int} (hperm : numbers.Perm nums19) :
    Shape9 (seed_sudoku numbers) ∧ check_if_sudoku_solved (seed_sudoku numbers) = true := by
  have hlen : numbers.length = 9 := by rw [hperm.length_eq]; rfl
  rw [seed_sudoku_relabel hlen]
  have hsid : SolvedSpec (seed_sudoku nums19) :=
    (check_if_sudoku_solved_iff seed_id_shape).mp seed_id_solved
  have hshape := shape_mapGrid seed_id_shape
    (fun v => if v = 0 then 0 else numbers.getD (v - 1).toNat 0)
  refine ⟨hshape, ?_⟩
  rw [check_if_sudoku_solved_iff hshape]
  refine solvedspec_relabel _ seed_id_shape ?_ ?_ hsid
  · intro v hv
    have hvn : v ∈ numbers := (hperm.mem_iff).mpr hv
    obtain ⟨n1, n2, n3, n4, n5, n6, n7, n8, n9, rfl⟩ := exists_nine hlen
    simp only [List.mem_cons, List.not_mem_nil, or_false] at hvn
    rcases hvn with rfl | rfl | rfl | rfl | rfl | rfl | rfl | rfl | rfl
    · exact ⟨1, by decide, rfl⟩
    · exact ⟨2, by decide, rfl⟩
    · exact ⟨3, by decide, rfl⟩
    · exact ⟨4, by decide, rfl⟩
    · exact ⟨5, by decide, rfl⟩
    · exact ⟨6, by decide, rfl⟩
    · exact ⟨7, by decide, rfl⟩
    · exact ⟨8, by decide, rfl⟩
    · exact ⟨9, by decide, rfl⟩
  · intro v hv
    have hne : ¬(v = 0) := by
      rw [mem_nums19_iff] at hv
      omega
    rw [if_neg hne]
    have hidx : (v - 1).toNat < numbers.length := by
      rw [hlen]
      rw [mem_nums19_iff] at hv
      omega
    have hmem : numbers.getD (v - 1).toNat 0 ∈ numbers := by
      rw [getD_eq_getElem _ _ _ hidx]
      exact List.getElem_mem hidx
    have hmem19 : numbers.getD (v - 1).toNat 0 ∈ nums19 := hperm.subset hmem
    rw [mem_nums19_iff] at hmem19
    omega

theorem solved_flip_rows (choices : List (Nat × Nat)) :
    ∀ g : Grid, Shape9 g → check_if_sudoku_solved g = true →
    (∀ p ∈ choices, p.1 < 9 ∧ p.2 < 9 ∧ p.1 / 3 = p.2 / 3) →
    Shape9 (flip_rows g choices) ∧ check_if_sudoku_solved (flip_rows g choices) = true := by
  induction choices with
  | nil => intro g h hs _; exact ⟨h, hs⟩
  | cons p rest ih =>
    intro g h hs hin
    have hp := hin p (List.mem_cons_self p rest)
    exact ih (flip_row g p.1 p.2) (shape_flip_row h hp.1 hp.2.1)
      (solved_flip_row h hs hp.1 hp.2.1 hp.2.2)
      (fun q hq => hin q (List.mem_cons_of_mem p hq))

theorem solved_flip_columns (choices : List (Nat × Nat)) :
    ∀ g : Grid, Shape9 g → check_if_sudoku_solved g = true →
    (∀ p ∈ choices, p.1 < 9 ∧ p.2 < 9 ∧ p.1 / 3 = p.2 / 3) →
    Shape9 (flip_columns g choices) ∧
      check_if_sudoku_solved (flip_columns g choices) = true := by
  induction choices with
  | nil => intro g h hs _; exact ⟨h, hs⟩
  | cons p rest ih =>
    intro g h hs hin
    have hp := hin p (List.mem_cons_self p rest)
    exact ih (flip_column g p.1 p.2) (shape_flip_column h hp.1 hp.2.1)
      (solved_flip_column h hs hp.1 hp.2.1 hp.2.2)
      (fun q hq => hin q (List.mem_cons_of_mem p hq))

theorem solved_flip_grid_rows (choices : List (Nat × Nat)) :
    ∀ g : Grid, Shape9 g → check_if_sudoku_solved g = true →
    (∀ p ∈ choices, p.1 < 3 ∧ p.2 < 3) →
    Shape9 (flip_grid_rows g choices) ∧
      check_if_sudoku_solved (flip_grid_rows g choices) = true := by
  induction choices with
  | nil => intro g h hs _; exact ⟨h, hs⟩
  | cons p rest ih =>
    intro g h hs hin
    have hp := hin p (List.mem_cons_self p rest)
    exact ih (band_flip_rows g p.1 p.2) (shape_band_flip_rows h hp.1 hp.2)
      (solved_band_flip_rows h hs hp.1 hp.2)
      (fun q hq => hin q (List.mem_cons_of_mem p hq))

theorem solved_flip_grid_columns (choices : List (Nat × Nat)) :
    ∀ g : Grid, Shape9 g → check_if_sudoku_solved g = true →
    (∀ p ∈ choices, p.1 < 3 ∧ p.2 < 3) →
    Shape9 (flip_grid_columns g choices) ∧
      check_if_sudoku_solved (flip_grid_columns g choices) = true := by
  induction choices with
  | nil => intro g h hs _; exact ⟨h, hs⟩
  | cons p rest ih =>
    intro g h hs hin
    have hp := hin p (List.mem_cons_self p rest)
    exact ih (band_flip_columns g p.1 p.2) (shape_band_flip_columns h hp.1 hp.2)
      (solved_band_flip_columns h hs hp.1 hp.2)
      (fun q hq => hin q (List.mem_cons_of_mem p hq))

theorem solved_random_rotate {g : Grid} (h : Shape9 g)
    (hs : check_if_sudoku_solved g = true) (rot : Int) :
    check_if_sudoku_solved (random_rotate g rot) = true := by
  unfold random_rotate
  split_ifs
  · exact solved_rot90 h hs
  · exact solved_rot180 h hs
  · exact solved_rot270 h hs
  · exact hs

theorem G_pos (e : Nat) : 1 ≤ G e := by
  cases e with
  | zero => exact Nat.le_refl 1
  | succ n => rw [G]; omega

/-- Weighted sum of the remaining search capacity `9 - d` of the backtracking
cells, cell `k` weighted by `G (len - 1 - k)`; part of the termination
measure. -/
def wsum (len : Nat) : Nat → List Int → Nat
  | _, [] => 0
  | k, d :: rest => (9 - d).toNat * G (len - 1 - k) + wsum len (k + 1) rest

/-- Cursor potential of the backtracking loop; the other part of the
termination measure. -/
def hW (len : Nat) : Nat → Nat
  | 0 => 0
  | c + 1 => hW len c + 9 * G (len - 2 - c) + 1

theorem wsum_set (len : Nat) (v : Int) :
    ∀ (vals : List Int) (k c : Nat), c < vals.length →
    wsum len k (vals.set c v) + (9 - vals.getD c 0).toNat * G (len - 1 - (k + c)) =
      wsum len k vals + (9 - v).toNat * G (len - 1 - (k + c)) := by
  intro vals
  induction vals with
  | nil => intro k c hc; simp at hc
  | cons d rest ih =>
    intro k c hc
    cases c with
    | zero =>
      simp only [List.set_cons_zero, List.getD_cons_zero, Nat.add_zero, wsum]
      omega
    | succ m =>
      simp only [List.set_cons_succ, List.getD_cons_succ, wsum]
      have he : k + (m + 1) = (k + 1) + m := by omega
      rw [he]
      have := ih (k + 1) m (by simpa using hc)
      omega

theorem wsum_all_zero (len : Nat) :
    ∀ (vals : List Int) (k : Nat), (∀ d ∈ vals, d = 0) →
    wsum len k vals = 9 * sumW len k vals.length := by
  intro vals
  induction vals with
  | nil => intro k _; rfl
  | cons d rest ih =>
    intro k hz
    have hd : d = 0 := hz d (List.mem_cons_self d rest)
    subst hd
    simp only [wsum, List.length_cons]
    rw [show rest.length + 1 = rest.length + 1 from rfl]
    show (9 - (0 : Int)).toNat * G (len - 1 - k) + wsum len (k + 1) rest =
      9 * sumW len k (rest.length + 1)
    rw [ih (k + 1) (fun x hx => hz x (List.mem_cons_of_mem _ hx))]
    show 9 * G (len - 1 - k) + 9 * sumW len (k + 1) rest.length = _
    rw [sumW]
    ring

theorem range_split {m r : Nat} (hr : r < m) :
    List.range m = List.range r ++ r :: List.range' (r + 1) (m - r - 1) := by
  obtain ⟨n, hn⟩ : ∃ n, m - r = n + 1 := ⟨m - r - 1, by omega⟩
  have h0 : m - r - 1 = n := by omega
  rw [h0, List.range_eq_range', List.range_eq_range']
  have h1 : (r : Nat) :: List.range' (r + 1) n = List.range' r (m - r) := by
    rw [hn, List.range'_succ]
  rw [h1]
  have h2 := List.range'_append_1 0 r (m - r)
  simp only [Nat.zero_add] at h2
  rw [h2]
  congr 1
  omega

theorem sum_map_range_update {F F2 : Nat → Nat} {m r : Nat} (hr : r < m)
    (h : ∀ i, i ≠ r → F2 i = F i) (hd : F2 r + 1 = F r) :
    ((List.range m).map F2).sum + 1 = ((List.range m).map F).sum := by
  rw [range_split hr, List.map_append, List.map_append, List.sum_append, List.sum_append,
    List.map_cons, List.map_cons, List.sum_cons, List.sum_cons]
  have h1 : (List.range r).map F2 = (List.range r).map F :=
    List.map_congr_left fun i hi => h i (by rw [List.mem_range] at hi; omega)
  have h2 : (List.range' (r + 1) (m - r - 1)).map F2 =
      (List.range' (r + 1) (m - r - 1)).map F :=
    List.map_congr_left fun i hi => h i (by rw [List.mem_range'_1] at hi; omega)
  rw [h1, h2]
  omega

theorem filterMap_length_update {α : Type} {f f2 : Nat → Option α} {m c : Nat} (hc : c < m)
    (hff : ∀ j, j ≠ c → f2 j = f j) (hsome : (f c).isSome) (hnone : f2 c = none) :
    ((List.range m).filterMap f2).length + 1 = ((List.range m).filterMap f).length := by
  rw [range_split hc, List.filterMap_append, List.filterMap_append,
    List.length_append, List.length_append]
  have h1 : (List.range c).filterMap f2 = (List.range c).filterMap f :=
    List.filterMap_congr fun i hi => hff i (by rw [List.mem_range] at hi; omega)
  have h2 : (List.range' (c + 1) (m - c - 1)).filterMap f2 =
      (List.range' (c + 1) (m - c - 1)).filterMap f :=
    List.filterMap_congr fun i hi => hff i (by rw [List.mem_range'_1] at hi; omega)
  obtain ⟨a, ha⟩ := Option.isSome_iff_exists.mp hsome
  rw [h1, List.filterMap_cons_none hnone, h2, List.filterMap_cons_some ha, List.length_cons]
  omega

theorem countZeros_setCell {g : Grid} (h : Shape9 g) {r c : Nat} (hr : r < 9) (hc : c < 9)
    (hz : getCell g r c = 0) {v : Int} (hv : v ≠ 0) :
    (get_all_empty_fields (setCell g r c v)).length + 1 =
      (get_all_empty_fields g).length := by
  have h2 : Shape9 (setCell g r c v) := shape_setCell h r c v
  unfold get_all_empty_fields
  rw [List.length_flatMap, List.length_flatMap, h.1, h2.1, headD_length_shape h,
    headD_length_shape h2]
  refine sum_map_range_update hr ?_ ?_
  · intro i hi
    simp only [Function.comp]
    congr 1
    refine List.filterMap_congr fun j hj => ?_
    rw [getCell_setCell_ne g v (Or.inl (fun he => hi he.symm))]
  · simp only [Function.comp]
    refine filterMap_length_update hc ?_ ?_ ?_
    · intro j hj
      rw [getCell_setCell_ne g v (Or.inr (fun he => hj he.symm))]
    · rw [hz]
      simp
    · rw [getCell_setCell_self h hr hc v, if_neg hv]

theorem gaef_bounds {g : Grid} (h : Shape9 g) :
    ∀ p ∈ get_all_empty_fields g, p.2 < 9 ∧ p.1 < 9 := by
  intro p hp
  obtain ⟨h2, h1, _⟩ := mem_get_all_empty_fields.mp hp
  rw [h.1] at h2
  rw [headD_length_shape h] at h1
  exact ⟨h2, h1⟩

theorem getD_zero_mem {l : List Int} (h : 0 < l.length) : l.getD 0 0 ∈ l := by
  cases l with
  | nil => simp at h
  | cons a t => simp

theorem missing_mem_nums19 {g : Grid} {a b : Nat} {x : Int}
    (hx : x ∈ get_all_missing_numbers g a b) : x ∈ nums19 := by
  unfold get_all_missing_numbers common_numbers at hx
  have h1 := (List.mem_filter.mp hx).1
  have h2 := (List.mem_filter.mp h1).1
  unfold find_missing_numbers at h2
  exact (List.mem_filter.mp h2).1

theorem nakedFold_spec (locs : List (Nat × Nat)) :
    ∀ (g0 : Grid) (b0 : Bool), Shape9 g0 → (∀ p ∈ locs, p.2 < 9 ∧ p.1 < 9) →
    Shape9 (locs.foldl nakedBody (g0, b0)).1 ∧
    (get_all_empty_fields (locs.foldl nakedBody (g0, b0)).1).length ≤
      (get_all_empty_fields g0).length ∧
    (b0 = false → (locs.foldl nakedBody (g0, b0)).2 = true →
      (get_all_empty_fields (locs.foldl nakedBody (g0, b0)).1).length <
        (get_all_empty_fields g0).length) := by
  induction locs with
  | nil =>
    intro g0 b0 h _
    refine ⟨h, Nat.le_refl _, fun h1 h2 => ?_⟩
    rw [List.foldl_nil] at h2
    simp [h1] at h2
  | cons q rest ih =>
    intro g0 b0 h hb
    have hq := hb q (List.mem_cons_self q rest)
    have hbrest := fun p hp => hb p (List.mem_cons_of_mem q hp)
    rw [List.foldl_cons]
    by_cases hz : getCell g0 q.2 q.1 = 0
    · by_cases hlen1 : (get_all_missing_numbers g0 q.1 q.2).length = 1
      · have hstep : nakedBody (g0, b0) q =
            (setCell g0 q.2 q.1 ((get_all_missing_numbers g0 q.1 q.2).getD 0 0), true) := by
          unfold nakedBody
          rw [if_pos hz, if_pos hlen1]
        rw [hstep]
        have hm0mem : (get_all_missing_numbers g0 q.1 q.2).getD 0 0 ∈
            get_all_missing_numbers g0 q.1 q.2 := getD_zero_mem (by omega)
        have hm0ne : (get_all_missing_numbers g0 q.1 q.2).getD 0 0 ≠ 0 := by
          have hm := missing_mem_nums19 hm0mem
          rw [mem_nums19_iff] at hm
          omega
        have hdec := countZeros_setCell h hq.1 hq.2 hz hm0ne
        have ih2 := ih (setCell g0 q.2 q.1 ((get_all_missing_numbers g0 q.1 q.2).getD 0 0))
          true (shape_setCell h q.2 q.1 _) hbrest
        refine ⟨ih2.1, by omega, fun h1 h2 => by omega⟩
      · have hstep : nakedBody (g0, b0) q = (g0, b0) := by
          unfold nakedBody
          rw [if_pos hz, if_neg hlen1]
        rw [hstep]
        exact ih g0 b0 h hbrest
    · have hstep : nakedBody (g0, b0) q = (g0, b0) := by
        unfold nakedBody
        rw [if_neg hz]
      rw [hstep]
      exact ih g0 b0 h hbrest

theorem nakedLoopF_sufficient :
    ∀ (n : Nat) (g : Grid), Shape9 g → (get_all_empty_fields g).length < n →
    ∃ g1, nakedLoopF n g = some g1 ∧ Shape9 g1 := by
  intro n
  induction n with
  | zero => intro g _ habs; omega
  | succ n ih =>
    intro g h hlt
    have hspec := nakedFold_spec (get_all_empty_fields g) g false h (gaef_bounds h)
    simp only [nakedLoopF]
    by_cases hs2 : (nakedStep g).2 = true
    · rw [if_pos hs2]
      have hdec : (get_all_empty_fields (nakedStep g).1).length <
          (get_all_empty_fields g).length := hspec.2.2 rfl hs2
      exact ih (nakedStep g).1 hspec.1 (by omega)
    · rw [if_neg hs2]
      exact ⟨(nakedStep g).1, rfl, hspec.1⟩

/-- Values currently stored at the backtracking cells, in list order. -/
def btVals (locs : List (Nat × Nat)) (g : Grid) : List Int :=
  locs.map fun p => getCell g p.2 p.1

/-- Termination measure of the backtracking loop: remaining search capacity of
the cells plus the cursor potential. -/
def btMeasure (locs : List (Nat × Nat)) (g : Grid) (i : Int) : Nat :=
  wsum locs.length 0 (btVals locs g) + hW locs.length (i + 1).toNat

/-- Invariant of the backtracking loop: this holds at entry and is preserved
by every iteration (the cursor relations are those enforced by the loop's two
break checks; the value bound holds because cells start at 0, increments stop
at 9, and the reset writes 0). -/
def BtInv (locs : List (Nat × Nat)) (g : Grid) (i : Int) : Prop :=
  Shape9 g ∧ -1 ≤ i ∧ i + 1 < (locs.length : Int) ∧
  (∀ p ∈ locs, p.2 < 9 ∧ p.1 < 9) ∧ locs.Nodup ∧
  (∀ p ∈ locs, getCell g p.2 p.1 ≤ 9)

theorem length_btVals {locs : List (Nat × Nat)} {g : Grid} :
    (btVals locs g).length = locs.length := by
  simp [btVals]

theorem pair_ne_components {p q : Nat × Nat} (h : p ≠ q) : q.2 ≠ p.2 ∨ q.1 ≠ p.1 := by
  by_contra hcon
  push_neg at hcon
  exact h (Prod.ext hcon.2.symm hcon.1.symm)

theorem btVals_getD {locs : List (Nat × Nat)} {g : Grid} {c : Nat} (hc : c < locs.length) :
    (btVals locs g).getD c 0 =
      getCell g (locs.getD c (0, 0)).2 (locs.getD c (0, 0)).1 := by
  unfold btVals
  rw [getD_eq_getElem _ _ _ (by simpa using hc), List.getElem_map,
    getD_eq_getElem _ _ _ hc]

theorem btVals_setCell {locs : List (Nat × Nat)} {g : Grid} (h : Shape9 g)
    (hb : ∀ p ∈ locs, p.2 < 9 ∧ p.1 < 9) (hnd : locs.Nodup) {c : Nat}
    (hc : c < locs.length) (v : Int) :
    btVals locs (setCell g (locs.getD c (0, 0)).2 (locs.getD c (0, 0)).1 v) =
      (btVals locs g).set c v := by
  apply List.ext_getElem
  · simp [btVals]
  intro k hk1 hk2
  have hk : k < locs.length := by simpa [btVals] using hk1
  have hA : locs.getD c (0, 0) = locs[c] := getD_eq_getElem _ _ _ hc
  rw [List.getElem_set]
  simp only [btVals, List.getElem_map]
  by_cases hck : c = k
  · subst hck
    rw [if_pos rfl]
    have hloc2 : locs.getD c (0, 0) ∈ locs := by
      rw [hA]; exact List.getElem_mem hc
    rw [← hA]
    exact getCell_setCell_self h (hb _ hloc2).1 (hb _ hloc2).2 v
  · rw [if_neg hck]
    have hne : locs[k] ≠ locs.getD c (0, 0) := by
      rw [hA]
      intro he
      exact hck ((hnd.getElem_inj_iff).mp he.symm)
    exact getCell_setCell_ne g v (pair_ne_components hne)

theorem hW_succ (len c : Nat) : hW len (c + 1) = hW len c + 9 * G (len - 2 - c) + 1 := rfl

theorem mul_pred (A B : Nat) (hA : 1 ≤ A) : A * B = (A - 1) * B + B := by
  cases A with
  | zero => omega
  | succ n => simp [Nat.succ_mul]

theorem btStepF_spec {locs : List (Nat × Nat)} {g : Grid} {i : Int}
    (hinv : BtInv locs g i) (g2 : Grid) (i2 : Int)
    (hstep : btStepF locs g i = Sum.inl (g2, i2)) :
    BtInv locs g2 i2 ∧ btMeasure locs g2 i2 < btMeasure locs g i := by
  obtain ⟨hsh, hge, hlt, hb, hnd, hv9⟩ := hinv
  have hc : (i + 1).toNat < locs.length := by omega
  have hloc : locs.getD (i + 1).toNat (0, 0) ∈ locs := by
    rw [getD_eq_getElem _ _ _ hc]
    exact List.getElem_mem hc
  have hb2 := hb _ hloc
  have hval9 := hv9 _ hloc
  have hA1 : 1 ≤ G (locs.length - 1 - (i + 1).toNat) := G_pos _
  simp only [btStepF] at hstep
  by_cases h9 : getCell g (locs.getD (i + 1).toNat (0, 0)).2
      (locs.getD (i + 1).toNat (0, 0)).1 = 9
  · rw [if_pos h9] at hstep
    by_cases hbk1 : i + 1 - 2 < -1
    · rw [if_pos hbk1] at hstep
      cases hstep
    · rw [if_neg hbk1] at hstep
      by_cases hbk2 : i + 1 - 2 ≥ (locs.length : Int) - 1
      · rw [if_pos hbk2] at hstep
        cases hstep
      · rw [if_neg hbk2] at hstep
        obtain ⟨rfl, rfl⟩ := Prod.mk.injEq _ _ _ _ ▸ (Sum.inl.injEq _ _ ▸ hstep)
        constructor
        · refine ⟨shape_setCell hsh _ _ _, by omega, by omega, hb, hnd, ?_⟩
          intro p hp
          by_cases hpe : p = locs.getD (i + 1).toNat (0, 0)
          · subst hpe
            rw [getCell_setCell_self hsh hb2.1 hb2.2 0]
            norm_num
          · rw [getCell_setCell_ne g 0 (pair_ne_components hpe)]
            exact hv9 p hp
        · unfold btMeasure
          have hset := btVals_setCell hsh hb hnd hc (0 : Int)
          rw [hset]
          have hws := wsum_set locs.length 0 (btVals locs g) 0 (i + 1).toNat
            (by rw [length_btVals]; exact hc)
          rw [btVals_getD hc, h9] at hws
          simp only [Nat.zero_add] at hws
          have h90 : ((9 : Int) - 9).toNat = 0 := rfl
          have h09 : ((9 : Int) - 0).toNat = 9 := rfl
          rw [h90, h09] at hws
          obtain ⟨c0, hc0⟩ : ∃ c0, (i + 1).toNat = c0 + 1 := ⟨(i + 1).toNat - 1, by omega⟩
          have hcur1 : (i + 1 - 2 + 1).toNat = c0 := by omega
          rw [hcur1]
          rw [hc0] at hws hA1 ⊢
          rw [hW_succ]
          have hidx : locs.length - 2 - c0 = locs.length - 1 - (c0 + 1) := by omega
          rw [hidx]
          omega
  · rw [if_neg h9] at hstep
    have hval8 : getCell g (locs.getD (i + 1).toNat (0, 0)).2
        (locs.getD (i + 1).toNat (0, 0)).1 ≤ 8 := by omega
    set var := getCell g (locs.getD (i + 1).toNat (0, 0)).2
      (locs.getD (i + 1).toNat (0, 0)).1 with hvar
    by_cases hvalid : is_loc_valid
        (setCell g (locs.getD (i + 1).toNat (0, 0)).2 (locs.getD (i + 1).toNat (0, 0)).1
          (var + 1))
        (locs.getD (i + 1).toNat (0, 0)).1 (locs.getD (i + 1).toNat (0, 0)).2 = true
    · rw [if_pos hvalid] at hstep
      by_cases hbk : i + 1 ≥ (locs.length : Int) - 1
      · rw [if_pos hbk] at hstep
        cases hstep
      · rw [if_neg hbk] at hstep
        obtain ⟨rfl, rfl⟩ := Prod.mk.injEq _ _ _ _ ▸ (Sum.inl.injEq _ _ ▸ hstep)
        constructor
        · refine ⟨shape_setCell hsh _ _ _, by omega, by omega, hb, hnd, ?_⟩
          intro p hp
          by_cases hpe : p = locs.getD (i + 1).toNat (0, 0)
          · subst hpe
            rw [getCell_setCell_self hsh hb2.1 hb2.2 (var + 1)]
            omega
          · rw [getCell_setCell_ne g (var + 1) (pair_ne_components hpe)]
            exact hv9 p hp
        · unfold btMeasure
          rw [btVals_setCell hsh hb hnd hc (var + 1)]
          have hws := wsum_set locs.length (var + 1) (btVals locs g) 0 (i + 1).toNat
            (by rw [length_btVals]; exact hc)
          rw [btVals_getD hc, ← hvar] at hws
          simp only [Nat.zero_add] at hws
          have ha1 : 1 ≤ (9 - var).toNat := by omega
          have hsub : ((9 : Int) - (var + 1)).toNat = (9 - var).toNat - 1 := by omega
          rw [hsub, mul_pred _ _ ha1] at hws
          have hcur : (i + 1 + 1).toNat = (i + 1).toNat + 1 := by omega
          rw [hcur, hW_succ]
          have hGexp : G (locs.length - 1 - (i + 1).toNat) =
              9 * G (locs.length - 2 - (i + 1).toNat) + 2 := by
            rw [show locs.length - 1 - (i + 1).toNat =
              (locs.length - 2 - (i + 1).toNat) + 1 by omega, G]
          omega
    · rw [if_neg hvalid] at hstep
      by_cases hbk : i + 1 - 1 ≥ (locs.length : Int) - 1
      · rw [if_pos hbk] at hstep
        cases hstep
      · rw [if_neg hbk] at hstep
        obtain ⟨rfl, rfl⟩ := Prod.mk.injEq _ _ _ _ ▸ (Sum.inl.injEq _ _ ▸ hstep)
        constructor
        · refine ⟨shape_setCell hsh _ _ _, by omega, by omega, hb, hnd, ?_⟩
          intro p hp
          by_cases hpe : p = locs.getD (i + 1).toNat (0, 0)
          · subst hpe
            rw [getCell_setCell_self hsh hb2.1 hb2.2 (var + 1)]
            omega
          · rw [getCell_setCell_ne g (var + 1) (pair_ne_components hpe)]
            exact hv9 p hp
        · unfold btMeasure
          rw [btVals_setCell hsh hb hnd hc (var + 1)]
          have hws := wsum_set locs.length (var + 1) (btVals locs g) 0 (i + 1).toNat
            (by rw [length_btVals]; exact hc)
          rw [btVals_getD hc, ← hvar] at hws
          simp only [Nat.zero_add] at hws
          have ha1 : 1 ≤ (9 - var).toNat := by omega
          have hsub : ((9 : Int) - (var + 1)).toNat = (9 - var).toNat - 1 := by omega
          rw [hsub, mul_pred _ _ ha1] at hws
          have hcur : (i + 1 - 1 + 1).toNat = (i + 1).toNat := by omega
          rw [hcur]
          omega

theorem gaef_nodup (g : Grid) : (get_all_empty_fields g).Nodup := by
  unfold get_all_empty_fields
  rw [List.nodup_flatMap]
  constructor
  · intro i hi
    refine (List.nodup_range _).filterMap ?_
    intro a a2 b hb hb2
    rw [Option.mem_def] at hb hb2
    split at hb
    · split at hb2
      · simp only [Option.some.injEq] at hb hb2
        rw [← hb] at hb2
        exact ((Prod.mk.injEq _ _ _ _ ▸ hb2).1).symm
      · cases hb2
    · cases hb
  · refine (List.nodup_range _).imp ?_
    intro a b hne p hp hp2
    obtain ⟨j, hj, hpj⟩ := List.mem_filterMap.mp hp
    obtain ⟨j2, hj2, hpj2⟩ := List.mem_filterMap.mp hp2
    split at hpj
    · simp only [Option.some.injEq] at hpj
      split at hpj2
      · simp only [Option.some.injEq] at hpj2
        apply hne
        have h1 : p.2 = a := by rw [← hpj]
        have h2 : p.2 = b := by rw [← hpj2]
        rw [← h1, h2]
      · cases hpj2
    · cases hpj

theorem btVals_init {g : Grid} : ∀ d ∈ btVals (get_all_empty_fields g) g, d = 0 := by
  intro d hd
  obtain ⟨p, hp, rfl⟩ := List.mem_map.mp hd
  exact (mem_get_all_empty_fields.mp hp).2.2

theorem btLoopF_sufficient :
    ∀ (n : Nat) (locs : List (Nat × Nat)) (g : Grid) (i : Int), BtInv locs g i →
    btMeasure locs g i < n → (btLoopF n locs g i).isSome = true := by
  intro n
  induction n with
  | zero => intro locs g i _ habs; omega
  | succ n ih =>
    intro locs g i hinv hm
    simp only [btLoopF]
    cases hstep : btStepF locs g i with
    | inr g2 => simp
    | inl s =>
      obtain ⟨hinv2, hdec⟩ := btStepF_spec hinv s.1 s.2 (by rw [hstep])
      exact ih locs s.1 s.2 hinv2 (by omega)

theorem solveMid_some {g : Grid} (h : Shape9 g) :
    ∃ g2, solveMid g = some g2 ∧ Shape9 g2 ∧
      ∃ g1, nakedLoopF ((get_all_empty_fields g).length + 1) g = some g1 ∧
        g2 = setCell g1 0 0 0 := by
  obtain ⟨g1, hg1, hsh1⟩ :=
    nakedLoopF_sufficient ((get_all_empty_fields g).length + 1) g h (Nat.lt_succ_self _)
  refine ⟨setCell g1 0 0 0, ?_, shape_setCell hsh1 0 0 0, g1, hg1, rfl⟩
  unfold solveMid
  rw [hg1]

theorem btInv_init {locs : List (Nat × Nat)} {g : Grid} (h : Shape9 g)
    (hlocs : locs = get_all_empty_fields g) (hpos : 0 < locs.length) :
    BtInv locs g (-1) := by
  subst hlocs
  refine ⟨h, by norm_num, by omega, gaef_bounds h, gaef_nodup g, ?_⟩
  intro p hp
  rw [(mem_get_all_empty_fields.mp hp).2.2]
  norm_num

theorem btMeasure_init {locs : List (Nat × Nat)} {g : Grid}
    (hlocs : locs = get_all_empty_fields g) :
    btMeasure locs g (-1) < btFuel locs.length := by
  subst hlocs
  unfold btMeasure btFuel
  have h0 : ((-1 : Int) + 1).toNat = 0 := rfl
  rw [h0]
  show wsum _ 0 _ + hW _ 0 < _
  rw [show hW (get_all_empty_fields g).length 0 = 0 from rfl,
    wsum_all_zero _ _ 0 btVals_init, length_btVals]
  omega

theorem solveRun_isSome {g : Grid} (h : Shape9 g) : (solveRun g).isSome = true := by
  obtain ⟨g2, hmid, hsh2, _⟩ := solveMid_some h
  unfold solveRun
  rw [hmid]
  by_cases hlen : (get_all_empty_fields g2).length > 0
  · simp only [if_pos hlen]
    exact btLoopF_sufficient _ _ _ _ (btInv_init hsh2 rfl hlen) (btMeasure_init rfl)
  · simp only [if_neg hlen]
    rfl

theorem range9_cons : List.range 9 = 0 :: List.range' 1 8 := by
  have := range_split (show 0 < 9 by norm_num)
  simpa using this

theorem flatMap_range9_split {α : Type} (F : Nat → List α) :
    (List.range 9).flatMap F = F 0 ++ (List.range' 1 8).flatMap F := by
  rw [range9_cons, List.flatMap_cons]

theorem gaef_single {g : Grid} (h : Shape9 g) (h00 : getCell g 0 0 = 0)
    (hrest : ∀ i j, i < 9 → j < 9 → ¬(i = 0 ∧ j = 0) → getCell g i j ≠ 0) :
    get_all_empty_fields g = [(0, 0)] := by
  unfold get_all_empty_fields
  rw [h.1, headD_length_shape h, flatMap_range9_split]
  have hrow0 : (List.filterMap (fun j => if getCell g 0 j = 0 then some (j, 0) else none)
      (List.range 9)) = [(0, 0)] := by
    rw [range9_cons, List.filterMap_cons_some (by rw [if_pos h00])]
    rw [List.filterMap_eq_nil_iff.mpr ?_]
    intro j hj
    rw [List.mem_range'_1] at hj
    rw [if_neg (hrest 0 j (by norm_num) (by omega) (by omega))]
  have hrows : (List.range' 1 8).flatMap (fun i =>
      List.filterMap (fun j => if getCell g i j = 0 then some (j, i) else none)
        (List.range 9)) = [] := by
    rw [List.flatMap_eq_nil_iff]
    intro i hi
    rw [List.mem_range'_1] at hi
    rw [List.filterMap_eq_nil_iff]
    intro j hj
    rw [List.mem_range] at hj
    rw [if_neg (hrest i j (by omega) hj (by omega))]
  rw [hrow0, hrows]
  simp

theorem get_row_getElem {g : Grid} {r j : Nat} (hj : j < (get_row g r).length) :
    (get_row g r)[j] = getCell g r j := by
  unfold get_row at hj ⊢
  rw [List.getElem_map, List.getElem_range]

theorem valid_of_solved {f : Grid} (hsh : Shape9 f) (hs : SolvedSpec f) :
    is_loc_valid f 0 0 = true := by
  have hrow : (get_row f 0).Perm nums19 := solved_row_perm hsh hs 0 (by norm_num)
  have hcol : (get_column f 0).Perm nums19 := solved_column_perm hsh hs 0 (by norm_num)
  have hsub : (get_subgrid f 0 3 0 3).Perm nums19 := by
    have := solved_subgrid_perm hs 0 0 (by norm_num) (by norm_num)
    norm_num at this
    exact this
  have h1 : is_vec_valid (get_row f 0) = true := by
    rw [is_vec_valid_iff]
    exact List.Nodup.filter _ (hrow.nodup_iff.mpr nums19_nodup)
  have h2 : is_vec_valid (get_column f 0) = true := by
    rw [is_vec_valid_iff]
    exact List.Nodup.filter _ (hcol.nodup_iff.mpr nums19_nodup)
  have h3 : is_vec_valid (get_subgrid f 0 3 0 3) = true := by
    rw [is_vec_valid_iff]
    exact List.Nodup.filter _ (hsub.nodup_iff.mpr nums19_nodup)
  simp only [is_loc_valid, get_subgrid_coor]
  norm_num [h1, h2, h3]

theorem invalid_of_wrong {f : Grid} (hsh : Shape9 f) (hs : SolvedSpec f) (w : Int)
    (hw1 : 1 ≤ w) (hw9 : w ≤ 9) (hne : w ≠ getCell f 0 0) :
    is_loc_valid (setCell f 0 0 w) 0 0 = false := by
  have hsh2 : Shape9 (setCell f 0 0 w) := shape_setCell hsh 0 0 w
  obtain ⟨c, hc, hcval⟩ := hs.2.1 0 (by norm_num) w (mem_nums19_iff.mpr ⟨hw1, hw9⟩)
  have hc0 : c ≠ 0 := by
    intro he
    rw [he] at hcval
    exact hne hcval.symm
  have hlen : (get_row (setCell f 0 0 w) 0).length = 9 := by
    rw [length_get_row, hsh2.1]
  have hdup : List.Duplicate w (get_row (setCell f 0 0 w) 0) := by
    rw [List.duplicate_iff_exists_distinct_get]
    refine ⟨⟨0, by omega⟩, ⟨c, by omega⟩, by simpa using Nat.pos_of_ne_zero hc0, ?_, ?_⟩
    · show w = (get_row (setCell f 0 0 w) 0)[0]
      rw [get_row_getElem (by omega)]
      exact (getCell_setCell_self hsh (by norm_num) (by norm_num) w).symm
    · show w = (get_row (setCell f 0 0 w) 0)[c]
      rw [get_row_getElem (by omega),
        getCell_setCell_ne f w (Or.inr (fun he => hc0 he.symm))]
      exact hcval.symm
  have hcount : 2 ≤ (get_row (setCell f 0 0 w) 0).count w :=
    List.duplicate_iff_two_le_count.mp hdup
  have hnotnodup : ¬((get_row (setCell f 0 0 w) 0).filter fun x => x ≠ 0).Nodup := by
    intro hnd
    have hle := List.nodup_iff_count_le_one.mp hnd w
    rw [List.count_filter (by simp; omega)] at hle
    omega
  have hrowfalse : is_vec_valid (get_row (setCell f 0 0 w) 0) = false := by
    rw [← Bool.not_eq_true, is_vec_valid_iff]
    exact hnotnodup
  simp only [is_loc_valid, get_subgrid_coor]
  rw [hrowfalse]
  simp

theorem btFuel_one : btFuel 1 = 10 := rfl

theorem btStepF_single (g : Grid) :
    btStepF [(0, 0)] g (-1) =
      (if getCell g 0 0 = 9 then Sum.inr (setCell g 0 0 0)
       else if is_loc_valid (setCell g 0 0 (getCell g 0 0 + 1)) 0 0 = true then
         Sum.inr (setCell g 0 0 (getCell g 0 0 + 1))
       else Sum.inl (setCell g 0 0 (getCell g 0 0 + 1), -1)) := by
  by_cases h9 : getCell g 0 0 = 9
  · simp [btStepF, h9]
  · by_cases hval : is_loc_valid (setCell g 0 0 (getCell g 0 0 + 1)) 0 0 = true
    · simp [btStepF, h9, hval]
    · simp [btStepF, h9, hval]

theorem bt_single_climb {f : Grid} (hsh : Shape9 f) (hs : SolvedSpec f) :
    ∀ (k n : Nat) (w : Int), 0 ≤ w → w < getCell f 0 0 →
    (getCell f 0 0 - w).toNat = k → k ≤ n →
    btLoopF n [(0, 0)] (setCell f 0 0 w) (-1) = some f := by
  intro k
  induction k with
  | zero => intro n w h0 hlt hk _; omega
  | succ k ih =>
    intro n w h0 hlt hk hn
    have hv0 : getCell f 0 0 ∈ nums19 := solved_cell_mem hsh hs (by norm_num) (by norm_num)
    rw [mem_nums19_iff] at hv0
    obtain ⟨n2, rfl⟩ : ∃ n2, n = n2 + 1 := ⟨n - 1, by omega⟩
    simp only [btLoopF]
    rw [btStepF_single]
    have hw : getCell (setCell f 0 0 w) 0 0 = w :=
      getCell_setCell_self hsh (by norm_num) (by norm_num) w
    rw [hw, if_neg (by omega : ¬w = (9 : Int)), setCell_setCell]
    by_cases hlast : w + 1 = getCell f 0 0
    · rw [hlast, setCell_getCell_self hsh (by norm_num) (by norm_num),
        if_pos (valid_of_solved hsh hs)]
    · have hinv : is_loc_valid (setCell f 0 0 (w + 1)) 0 0 = false :=
        invalid_of_wrong hsh hs (w + 1) (by omega) (by omega) hlast
      rw [if_neg (by rw [hinv]; exact Bool.false_ne_true)]
      exact ih n2 (w + 1) (by omega) (by omega) (by omega) (by omega)

theorem solve_of_solved {f : Grid} (hsh : Shape9 f)
    (hsol : check_if_sudoku_solved f = true) : solve_sudoku f = true := by
  have hs := (check_if_sudoku_solved_iff hsh).mp hsol
  have hnil : get_all_empty_fields f = [] := by
    rw [get_all_empty_fields_eq_nil]
    intro i hi j hj
    rw [hsh.1] at hi
    rw [headD_length_shape hsh] at hj
    exact hs.1 i hi j hj
  have hstep : nakedStep f = (f, false) := by
    unfold nakedStep
    rw [hnil, List.foldl_nil]
  have hloop : nakedLoopF ((get_all_empty_fields f).length + 1) f = some f := by
    rw [hnil]
    simp [nakedLoopF, hstep]
  have hmid : solveMid f = some (setCell f 0 0 0) := by
    unfold solveMid
    rw [hloop]
  have hsh2 : Shape9 (setCell f 0 0 0) := shape_setCell hsh 0 0 0
  have hlocs : get_all_empty_fields (setCell f 0 0 0) = [(0, 0)] := by
    refine gaef_single hsh2 (getCell_setCell_zero f 0 0) ?_
    intro i j hi hj hne
    rw [getCell_setCell_ne f 0 (by omega : (0 : Nat) ≠ i ∨ (0 : Nat) ≠ j)]
    exact hs.1 i hi j hj
  have hv0 : getCell f 0 0 ∈ nums19 := solved_cell_mem hsh hs (by norm_num) (by norm_num)
  rw [mem_nums19_iff] at hv0
  have hbt : btLoopF (btFuel 1) [(0, 0)] (setCell f 0 0 0) (-1) = some f := by
    refine bt_single_climb hsh hs (getCell f 0 0).toNat (btFuel 1) 0 (le_refl 0)
      (by omega) (by omega) (by rw [btFuel_one]; omega)
  have hrun : solveRun f = some f := by
    unfold solveRun
    rw [hmid]
    show (let locs := get_all_empty_fields (setCell f 0 0 0);
      if locs.length > 0 then btLoopF (btFuel locs.length) locs (setCell f 0 0 0) (-1)
      else some (setCell f 0 0 0)) = some f
    simp only [hlocs, List.length_cons, List.length_nil]
    norm_num
    exact hbt
  unfold solve_sudoku
  rw [hrun]
  exact hsol

theorem carveLoop_nil (g : Grid) (nd K : Int) :
    carveLoop [] g nd K = if nd < K then none else some g := rfl

theorem carveLoop_cons (x y : Nat) (rest : List (Nat × Nat)) (g : Grid) (nd K : Int) :
    carveLoop ((x, y) :: rest) g nd K =
      if nd < K then
        (if getCell g y x ≠ 0 then
          (if solve_sudoku (setCell g y x 0) then
            carveLoop rest (setCell g y x 0) (nd + 1) K
          else carveLoop rest (setCell (setCell g y x 0) y x (getCell g y x)) nd K)
        else carveLoop rest g nd K)
      else some g := rfl

theorem setCell_restore {g : Grid} (h : Shape9 g) {r c : Nat} (hr : r < 9) (hc : c < 9) :
    setCell (setCell g r c 0) r c (getCell g r c) = g := by
  rw [setCell_setCell, setCell_getCell_self h hr hc]

theorem carveLoop_spec (filled : Grid) :
    ∀ (draws : List (Nat × Nat)) (g : Grid) (nd K : Int) (out : Grid),
    Shape9 g → (∀ d ∈ draws, d.1 < 9 ∧ d.2 < 9) →
    0 ≤ nd → nd ≤ K →
    ((get_all_empty_fields g).length : Int) = nd →
    (∀ r c, r < 9 → c < 9 → getCell g r c ≠ 0 → getCell g r c = getCell filled r c) →
    solve_sudoku g = true →
    carveLoop draws g nd K = some out →
    ((get_all_empty_fields out).length : Int) = K ∧
    (∀ r c, r < 9 → c < 9 → getCell out r c ≠ 0 → getCell out r c = getCell filled r c) ∧
    solve_sudoku out = true := by
  intro draws
  induction draws with
  | nil =>
    intro g nd K out hsh hb h0 hK hz hagree hsolve hrun
    rw [carveLoop_nil] at hrun
    by_cases hlt : nd < K
    · rw [if_pos hlt] at hrun
      cases hrun
    · rw [if_neg hlt] at hrun
      simp only [Option.some.injEq] at hrun
      subst hrun
      exact ⟨by omega, hagree, hsolve⟩
  | cons d rest ih =>
    obtain ⟨x, y⟩ := d
    intro g nd K out hsh hb h0 hK hz hagree hsolve hrun
    have hd := hb (x, y) (List.mem_cons_self _ _)
    have hbrest := fun q hq => hb q (List.mem_cons_of_mem _ hq)
    rw [carveLoop_cons] at hrun
    by_cases hlt : nd < K
    · rw [if_pos hlt] at hrun
      by_cases hcell : getCell g y x ≠ 0
      · rw [if_pos hcell] at hrun
        have hsh2 : Shape9 (setCell g y x 0) := shape_setCell hsh y x 0
        have hrt : setCell (setCell g y x 0) y x (getCell g y x) = g :=
          setCell_restore hsh hd.2 hd.1
        have hzero2 : ((get_all_empty_fields (setCell g y x 0)).length : Int) = nd + 1 := by
          have hcount := countZeros_setCell hsh2 hd.2 hd.1
            (getCell_setCell_zero g y x) hcell
          rw [hrt] at hcount
          omega
        have hagree2 : ∀ r c, r < 9 → c < 9 → getCell (setCell g y x 0) r c ≠ 0 →
            getCell (setCell g y x 0) r c = getCell filled r c := by
          intro r c hr hc hne
          by_cases hrc : y = r ∧ x = c
          · obtain ⟨rfl, rfl⟩ := hrc
            rw [getCell_setCell_zero g y x] at hne
            exact absurd rfl hne
          · have hor : y ≠ r ∨ x ≠ c := by tauto
            rw [getCell_setCell_ne g 0 hor] at hne ⊢
            exact hagree r c hr hc hne
        by_cases hsolve2 : solve_sudoku (setCell g y x 0) = true
        · rw [if_pos hsolve2] at hrun
          exact ih (setCell g y x 0) (nd + 1) K out hsh2 hbrest (by omega) (by omega)
            hzero2 hagree2 hsolve2 hrun
        · rw [if_neg hsolve2] at hrun
          rw [hrt] at hrun
          exact ih g nd K out hsh hbrest h0 hK hz hagree hsolve hrun
      · rw [if_neg hcell] at hrun
        exact ih g nd K out hsh hbrest h0 hK hz hagree hsolve hrun
    · rw [if_neg hlt] at hrun
      simp only [Option.some.injEq] at hrun
      subst hrun
      exact ⟨by omega, hagree, hsolve⟩

/-! ### The claims -/

/-- C1: for every permutation `numbers` of 1–9, every sequence of in-range
random draws for the row/column swaps (each pair inside one band, as
`generate_two_unique_random_numbers` produces for each band's bounds), every
sequence of band-swap draws (band indices below 3), and every rotation draw,
the grid returned by `generate_full_sudoku` satisfies
`check_if_sudoku_solved`: it is completely filled and every row, column and
3×3 subgrid contains each of 1–9 exactly once. -/
theorem c1_generate_full_sudoku_solved (numbers : List Int)
    (ra rb rc ca cb cc gr gc : List (Nat × Nat)) (rot_num : Int)
    (hperm : numbers.Perm nums19)
    (hra : ∀ p ∈ ra, p.1 < 9 ∧ p.2 < 9 ∧ p.1 / 3 = p.2 / 3)
    (hrb : ∀ p ∈ rb, p.1 < 9 ∧ p.2 < 9 ∧ p.1 / 3 = p.2 / 3)
    (hrc : ∀ p ∈ rc, p.1 < 9 ∧ p.2 < 9 ∧ p.1 / 3 = p.2 / 3)
    (hca : ∀ p ∈ ca, p.1 < 9 ∧ p.2 < 9 ∧ p.1 / 3 = p.2 / 3)
    (hcb : ∀ p ∈ cb, p.1 < 9 ∧ p.2 < 9 ∧ p.1 / 3 = p.2 / 3)
    (hcc : ∀ p ∈ cc, p.1 < 9 ∧ p.2 < 9 ∧ p.1 / 3 = p.2 / 3)
    (hgr : ∀ p ∈ gr, p.1 < 3 ∧ p.2 < 3)
    (hgc : ∀ p ∈ gc, p.1 < 3 ∧ p.2 < 3) :
    check_if_sudoku_solved
      (generate_full_sudoku numbers ra rb rc ca cb cc gr gc rot_num) = true := by
  rw [generate_full_sudoku_eq]
  obtain ⟨hsh0, hs0⟩ := seed_sudoku_solved hperm
  have h1 := solved_flip_rows ra _ hsh0 hs0 hra
  have h2 := solved_flip_rows rb _ h1.1 h1.2 hrb
  have h3 := solved_flip_rows rc _ h2.1 h2.2 hrc
  have h4 := solved_flip_columns ca _ h3.1 h3.2 hca
  have h5 := solved_flip_columns cb _ h4.1 h4.2 hcb
  have h6 := solved_flip_columns cc _ h5.1 h5.2 hcc
  have h7 := solved_flip_grid_rows gr _ h6.1 h6.2 hgr
  have h8 := solved_flip_grid_columns gc _ h7.1 h7.2 hgc
  exact solved_random_rotate h8.1 h8.2 rot_num

theorem c1_witness :
    check_if_sudoku_solved
      (generate_full_sudoku nums19 [] [] [] [] [] [] [] [] 0) = true :=
  c1_generate_full_sudoku_solved nums19 [] [] [] [] [] [] [] [] 0
    (List.Perm.refl nums19) (by simp) (by simp) (by simp) (by simp) (by simp)
    (by simp) (by simp) (by simp)

/-- C2: for every solved 9×9 input grid, every in-range draw sequence and
every target `K ≥ 0`, whenever `generate_sudoku_to_solve` terminates (returns
`some out` before the supplied draws run out), the returned grid has exactly
`K` empty cells, agrees with the input on every non-empty cell, and
`solve_sudoku` on it returns `true`. -/
theorem c2_generate_sudoku_to_solve_spec (draws : List (Nat × Nat))
    (filled out : Grid) (K : Int) (hsh : Shape9 filled)
    (hsol : check_if_sudoku_solved filled = true)
    (hdraws : ∀ d ∈ draws, d.1 < 9 ∧ d.2 < 9)
    (hK : 0 ≤ K)
    (hrun : generate_sudoku_to_solve draws filled K = some out) :
    ((get_all_empty_fields out).length : Int) = K ∧
    (∀ r c, r < 9 → c < 9 → getCell out r c ≠ 0 →
      getCell out r c = getCell filled r c) ∧
    solve_sudoku out = true := by
  have hs := (check_if_sudoku_solved_iff hsh).mp hsol
  have hnil : get_all_empty_fields filled = [] := by
    rw [get_all_empty_fields_eq_nil]
    intro i hi j hj
    rw [hsh.1] at hi
    rw [headD_length_shape hsh] at hj
    exact hs.1 i hi j hj
  exact carveLoop_spec filled draws filled 0 K out hsh hdraws (le_refl 0) hK
    (by rw [hnil]; rfl) (fun r c _ _ _ => rfl) (solve_of_solved hsh hsol) hrun

theorem c2_witness :
    ((get_all_empty_fields (setCell (seed_sudoku nums19) 0 0 0)).length : Int) = 1 ∧
    (∀ r c, r < 9 → c < 9 → getCell (setCell (seed_sudoku nums19) 0 0 0) r c ≠ 0 →
      getCell (setCell (seed_sudoku nums19) 0 0 0) r c =
        getCell (seed_sudoku nums19) r c) ∧
    solve_sudoku (setCell (seed_sudoku nums19) 0 0 0) = true :=
  c2_generate_sudoku_to_solve_spec [(0, 0)] (seed_sudoku nums19)
    (setCell (seed_sudoku nums19) 0 0 0) 1 (by decide) (by decide) (by decide)
    (by decide) (by decide)

/-- C3: `solve_sudoku` terminates on every 9×9 grid with entries in 0–9: the
working clone's run (`solveRun`), which chains the fuelled naked-single loop
and the fuelled backtracking loop, always returns `some` grid — the fuel
bounds proved in `nakedLoopF_sufficient` and `btLoopF_sufficient` are never
exhausted. -/
theorem c3_solve_sudoku_terminates (g : Grid) (h : Shape9 g)
    (hvals : ∀ r, r < 9 → ∀ c, c < 9 → 0 ≤ getCell g r c ∧ getCell g r c ≤ 9) :
    (solveRun g).isSome = true :=
  solveRun_isSome h

theorem c3_witness : (solveRun (seed_sudoku nums19)).isSome = true :=
  c3_solve_sudoku_terminates (seed_sudoku nums19) (by decide) (by decide)

/-- Concrete grid refuting C4: zeros everywhere except a 5 at row 6, column 1
and a 5 at row 7, column 2.  The 3×3 subgrid containing cell
(col 0, row 8) — rows 6..8, columns 0..2 — holds both 5s. -/
def c4Grid : Grid :=
  [[0, 0, 0, 0, 0, 0, 0, 0, 0],
   [0, 0, 0, 0, 0, 0, 0, 0, 0],
   [0, 0, 0, 0, 0, 0, 0, 0, 0],
   [0, 0, 0, 0, 0, 0, 0, 0, 0],
   [0, 0, 0, 0, 0, 0, 0, 0, 0],
   [0, 0, 0, 0, 0, 0, 0, 0, 0],
   [0, 5, 0, 0, 0, 0, 0, 0, 0],
   [0, 0, 5, 0, 0, 0, 0, 0, 0],
   [0, 0, 0, 0, 0, 0, 0, 0, 0]]

/-- C4 fails: `is_loc_valid` does not check the cell's own 3×3 subgrid.  For
cell (col 0, row 8) of `c4Grid` the row and column are duplicate-free but the
cell's subgrid (rows 6..9, columns 0..3) contains 5 twice, so the claimed
iff demands `false`; yet `is_loc_valid` returns `true`, because the source
passes the column bounds as row bounds to `get_subgrid`
(`get_subgrid(&sudoku, coor.0, coor.2, coor.1, coor.3)`) and therefore
validates the transposed block rows 0..3, columns 6..9 instead. -/
theorem c4_subgrid_transposed :
    is_loc_valid c4Grid 0 8 = true ∧
    is_vec_valid (get_row c4Grid 8) = true ∧
    is_vec_valid (get_column c4Grid 0) = true ∧
    is_vec_valid (get_subgrid c4Grid 6 9 0 3) = false := by
  decide

/-- C5: on every solved 9×9 grid, every single row swap inside a band, every
single column swap inside a band, every whole band swap of rows or of
columns, and each of the three rotations yield a grid that is still solved. -/
theorem c5_transforms_preserve_solved (g : Grid) (h : Shape9 g)
    (hsol : check_if_sudoku_solved g = true) :
    (∀ r1 r2, r1 < 9 → r2 < 9 → r1 / 3 = r2 / 3 →
      check_if_sudoku_solved (flip_row g r1 r2) = true) ∧
    (∀ c1 c2, c1 < 9 → c2 < 9 → c1 / 3 = c2 / 3 →
      check_if_sudoku_solved (flip_column g c1 c2) = true) ∧
    (∀ b1 b2, b1 < 3 → b2 < 3 →
      check_if_sudoku_solved (band_flip_rows g b1 b2) = true) ∧
    (∀ b1 b2, b1 < 3 → b2 < 3 →
      check_if_sudoku_solved (band_flip_columns g b1 b2) = true) ∧
    check_if_sudoku_solved (rotate_90_degrees g) = true ∧
    check_if_sudoku_solved (rotate_180_degrees g) = true ∧
    check_if_sudoku_solved (rotate_270_degrees g) = true :=
  ⟨fun r1 r2 h1 h2 hb => solved_flip_row h hsol h1 h2 hb,
   fun c1 c2 h1 h2 hb => solved_flip_column h hsol h1 h2 hb,
   fun b1 b2 h1 h2 => solved_band_flip_rows h hsol h1 h2,
   fun b1 b2 h1 h2 => solved_band_flip_columns h hsol h1 h2,
   solved_rot90 h hsol, solved_rot180 h hsol, solved_rot270 h hsol⟩

theorem c5_witness :
    (∀ r1 r2, r1 < 9 → r2 < 9 → r1 / 3 = r2 / 3 →
      check_if_sudoku_solved (flip_row (seed_sudoku nums19) r1 r2) = true) ∧
    (∀ c1 c2, c1 < 9 → c2 < 9 → c1 / 3 = c2 / 3 →
      check_if_sudoku_solved (flip_column (seed_sudoku nums19) c1 c2) = true) ∧
    (∀ b1 b2, b1 < 3 → b2 < 3 →
      check_if_sudoku_solved (band_flip_rows (seed_sudoku nums19) b1 b2) = true) ∧
    (∀ b1 b2, b1 < 3 → b2 < 3 →
      check_if_sudoku_solved (band_flip_columns (seed_sudoku nums19) b1 b2) = true) ∧
    check_if_sudoku_solved (rotate_90_degrees (seed_sudoku nums19)) = true ∧
    check_if_sudoku_solved (rotate_180_degrees (seed_sudoku nums19)) = true ∧
    check_if_sudoku_solved (rotate_270_degrees (seed_sudoku nums19)) = true :=
  c5_transforms_preserve_solved (seed_sudoku nums19) (by decide) (by decide)

/-- Marker grid whose four rotations are pairwise distinct, so the rotation
`random_rotate` applies can be read off from its output. -/
def c6Grid : Grid := [[1, 2], [3, 4]]

/-- C6 fails: the draw of `generate_random_number(0, 3)` lies in {0, 1, 2}
(the range is exclusive), so `random_rotate` applies the identity, the 90°
or the 180° rotation and its `rot_num == 3` branch — the only one applying
`rotate_270_degrees` — is unreachable: no reachable draw produces the 270°
rotation, and the choice is uniform over three rotations, not four. -/
theorem c6_rot270_unreachable :
    random_rotate c6Grid 0 = c6Grid ∧
    random_rotate c6Grid 1 = rotate_90_degrees c6Grid ∧
    random_rotate c6Grid 2 = rotate_180_degrees c6Grid ∧
    random_rotate c6Grid 0 ≠ rotate_270_degrees c6Grid ∧
    random_rotate c6Grid 1 ≠ rotate_270_degrees c6Grid ∧
    random_rotate c6Grid 2 ≠ rotate_270_degrees c6Grid := by
  decide

/-- C7: whatever grid the naked-single propagation phase of `solve_sudoku`
produces, the statement `sudoku_to_solve[0][0] = 0;` that follows it zeroes
the working clone's cell at row 0, column 0 before the backtracking phase
starts. -/
theorem c7_cell00_zeroed_before_backtracking (g g2 : Grid)
    (hmid : solveMid g = some g2) : getCell g2 0 0 = 0 := by
  unfold solveMid at hmid
  cases hloop : nakedLoopF ((get_all_empty_fields g).length + 1) g with
  | none =>
    rw [hloop] at hmid
    exact Option.noConfusion hmid
  | some g1 =>
    rw [hloop] at hmid
    have h2 : some (setCell g1 0 0 0) = some g2 := hmid
    cases h2
    exact getCell_setCell_zero g1 0 0

theorem c7_witness : getCell (setCell (seed_sudoku nums19) 0 0 0) 0 0 = 0 :=
  c7_cell00_zeroed_before_backtracking (seed_sudoku nums19)
    (setCell (seed_sudoku nums19) 0 0 0) (by decide)

/-- C8: a call `solve_sudoku(&sudoku_check)` never modifies the caller's
grid: the caller's grid after the call is exactly the input grid, and the
call's result is only the Boolean verdict — all mutation happens on the
private clone `sudoku_to_solve` threaded through `solveRun`. -/
theorem c8_solve_sudoku_preserves_caller_grid (g : Grid) :
    (solve_sudoku_call g).1 = g ∧
    solve_sudoku_call g = (g, solve_sudoku g) :=
  ⟨rfl, rfl⟩

/-- C9: on square grids, `rotate_180_degrees` equals `rotate_90_degrees`
applied twice, and `rotate_270_degrees` equals `rotate_90_degrees` applied
three times. -/
theorem c9_rotations_compose (g : Grid) (hsq : Square g) :
    rotate_180_degrees g = rotate_90_degrees (rotate_90_degrees g) ∧
    rotate_270_degrees g =
      rotate_90_degrees (rotate_90_degrees (rotate_90_degrees g)) :=
  ⟨rot180_eq_rot90_twice hsq, rot270_eq_rot90_thrice hsq⟩

theorem c9_witness :
    rotate_180_degrees [[(1 : Int), 2], [3, 4]] =
      rotate_90_degrees (rotate_90_degrees [[(1 : Int), 2], [3, 4]]) ∧
    rotate_270_degrees [[(1 : Int), 2], [3, 4]] =
      rotate_90_degrees
        (rotate_90_degrees (rotate_90_degrees [[(1 : Int), 2], [3, 4]])) :=
  c9_rotations_compose [[1, 2], [3, 4]] (by
    intro row hrow
    simp only [List.mem_cons, List.not_mem_nil, or_false] at hrow
    rcases hrow with rfl | rfl <;> rfl)

/-- C10: for every grid, every draw sequence and every target
`num_to_delete ≤ 0`, `generate_sudoku_to_solve` returns the input grid at
once: the while-condition `num_deleted < num_to_delete` is false on entry
(0 < num_to_delete fails), so the removal loop body is never entered and no
draw is consumed. -/
theorem c10_nonpositive_target_identity (draws : List (Nat × Nat)) (g : Grid)
    (K : Int) (hK : K ≤ 0) : generate_sudoku_to_solve draws g K = some g := by
  have hneg : ¬ (0 : Int) < K := by omega
  unfold generate_sudoku_to_solve
  cases draws with
  | nil => rw [carveLoop_nil, if_neg hneg]
  | cons d rest =>
    obtain ⟨x, y⟩ := d
    rw [carveLoop_cons, if_neg hneg]

theorem c10_witness :
    generate_sudoku_to_solve [(0, 0)] [[(1 : Int), 2], [3, 4]] (-3) =
      some [[(1 : Int), 2], [3, 4]] :=
  c10_nonpositive_target_identity [(0, 0)] [[1, 2], [3, 4]] (-3) (by decide)

end SudokuCreator
